import Mathlib

/-!
speedwire-lib: socket factory, obis data and speedwire header

A shallow embedding of `SpeedwireSocketFactory.cpp`, `ObisData.cpp` and
`SpeedwireHeader.hpp`, followed by the properties of the lookup algorithms, of the obis
byte encoding and of the header layout.

Conventions of the embedding:
* the enumerations `Direction` and `Type` are bitmasks over `Nat`; their enumerator values
  live in a header that is not among the sources and are passed as a `Flags` record;
* a `std::vector` is a `List`, kept in insertion order;
* a returned reference `entry.socket` is represented by the registry entry that holds it;
* a lookup on an empty registry reads `sockets[0]` out of bounds; that is `none`.
-/

/-! ## Socket factory: data model -/

/-- Modelled from the spec: the enumerator values of `Direction` (`SEND`, `RECV`) and of
`Type` (`MULTICAST`, `UNICAST`, `ANYCAST`), declared in `SpeedwireSocketFactory.hpp`.
The spec calls both enumerations bitmasks; every operation below takes their values as a
parameter. -/
structure Flags where
  SEND : Nat
  RECV : Nat
  MULTICAST : Nat
  UNICAST : Nat
  ANYCAST : Nat
  deriving DecidableEq

/-- Modelled from the spec: one bit per enumerator, in declaration order, as a concrete
choice of the values of `SpeedwireSocketFactory.hpp` on which closed examples are
evaluated. The spec does not say whether `ANYCAST` is a bit of its own or the union of
the other two; the examples below request `MULTICAST` and `UNICAST` only. -/
def bitFlags : Flags := ⟨1, 2, 1, 2, 4⟩

/-- The socket creation strategies, in the order the constructor tests them. -/
inductive Strategy where
  | ONE_SOCKET_FOR_EACH_INTERFACE
  | ONE_SINGLE_SOCKET
  | ONE_MULTICAST_SOCKET_AND_ONE_UNICAST_SOCKET_FOR_EACH_INTERFACE
  | ONE_UNICAST_SOCKET_FOR_EACH_INTERFACE
  deriving DecidableEq

/-- The raw socket collaborator, of which the factory only reads `getSocketFd()`. -/
structure SpeedwireSocket where
  fd : Int
  deriving DecidableEq

/-- The method `SpeedwireSocket::getSocketFd`. -/
def SpeedwireSocket.getSocketFd (s : SpeedwireSocket) : Int := s.fd

/-- One registry entry: the socket, its direction and type bitmasks and the address it is
bound to. -/
structure SocketEntry where
  socket : SpeedwireSocket
  direction : Nat
  type : Nat
  interface_address : String
  deriving DecidableEq

/-- The outcome of `SpeedwireSocket::openSocket(interface_address, multicast)`: the first
argument counts the opens attempted before this one, so that any pattern of successes and
failures can be described; `none` is a negative return value. -/
abbrev OpenOracle := Nat → String → Bool → Option SpeedwireSocket

/-- The mutable part of the factory while it is constructed: the registry and the number
of `openSocket` calls made so far. -/
structure FactoryState where
  sockets : List SocketEntry
  opens : Nat
  deriving DecidableEq

/-! ## Socket factory: construction -/

/-- `SpeedwireSocketFactory::openSocketForSingleInterface`: on a failed open nothing is
recorded and `false` is returned; otherwise the entry is appended to the registry. -/
def openSocketForSingleInterface (F : Flags) (os : OpenOracle) (st : FactoryState)
    (direction type : Nat) (interface_address : String) : Bool × FactoryState :=
  match os st.opens interface_address ((type &&& F.MULTICAST) != 0) with
  | none => (false, ⟨st.sockets, st.opens + 1⟩)
  | some s => (true, ⟨st.sockets ++ [⟨s, direction, type, interface_address⟩], st.opens + 1⟩)

/-- The loop of `openSocketForEachInterface` over the local addresses, carrying `result`. -/
def openSocketLoop (F : Flags) (os : OpenOracle) (direction type : Nat) :
    List String → Bool → FactoryState → Bool × FactoryState
  | [], result, st => (result, st)
  | local_ip :: rest, result, st =>
    let r := openSocketForSingleInterface F os st direction type local_ip
    openSocketLoop F os direction type rest (if r.1 == false then false else result) r.2

/-- `SpeedwireSocketFactory::openSocketForEachInterface`, over the addresses reported by
`localhost.getLocalIPv4Addresses()`. -/
def openSocketForEachInterface (F : Flags) (os : OpenOracle) (localIPs : List String)
    (st : FactoryState) (direction type : Nat) : Bool × FactoryState :=
  openSocketLoop F os direction type localIPs true st

/-- The constructor `SpeedwireSocketFactory::SpeedwireSocketFactory`, started on an empty
registry. -/
def construct (F : Flags) (os : OpenOracle) (localIPs : List String) (strategy : Strategy) :
    FactoryState :=
  let st0 : FactoryState := ⟨[], 0⟩
  match strategy with
  | .ONE_SOCKET_FOR_EACH_INTERFACE =>
    (openSocketForEachInterface F os localIPs st0 (F.SEND ||| F.RECV)
      (F.MULTICAST ||| F.UNICAST)).2
  | .ONE_SINGLE_SOCKET =>
    (openSocketForSingleInterface F os st0 (F.SEND ||| F.RECV)
      (F.MULTICAST ||| F.UNICAST) "0.0.0.0").2
  | .ONE_MULTICAST_SOCKET_AND_ONE_UNICAST_SOCKET_FOR_EACH_INTERFACE =>
    let st1 := (openSocketForEachInterface F os localIPs st0 (F.SEND ||| F.RECV) F.UNICAST).2
    (openSocketForSingleInterface F os st1 (F.SEND ||| F.RECV)
      (F.MULTICAST ||| F.UNICAST) "0.0.0.0").2
  | .ONE_UNICAST_SOCKET_FOR_EACH_INTERFACE =>
    (openSocketForEachInterface F os localIPs st0 (F.SEND ||| F.RECV) F.UNICAST).2

/-! ## Socket factory: lookups -/

/-- A loop `for (auto& entry : sockets)` that returns at the first entry passing `test`. -/
def scanSockets (test : SocketEntry → Bool) : List SocketEntry → Option SocketEntry
  | [] => none
  | entry :: rest => if test entry then some entry else scanSockets test rest

/-- `SpeedwireSocketFactory::getSendSocket`. -/
def getSendSocket (F : Flags) (sockets : List SocketEntry) (type : Nat) (if_addr : String) :
    Option SocketEntry :=
  -- first try to find an interface specific socket
  match (if if_addr != "0.0.0.0" then
      scanSockets (fun entry =>
        ((entry.direction &&& F.SEND) != 0 && (entry.type &&& type) == type)
          && entry.interface_address == if_addr) sockets
    else none) with
  | some entry => some entry
  | none =>
    -- try to find an INADDR_ANY socket
    match scanSockets (fun entry =>
        ((entry.direction &&& F.SEND) != 0 && (entry.type &&& type) == type)
          && entry.interface_address == "0.0.0.0") sockets with
    | some entry => some entry
    | none => sockets.head?

/-- `SpeedwireSocketFactory::getRecvSocket`. -/
def getRecvSocket (F : Flags) (sockets : List SocketEntry) (type : Nat) (if_addr : String) :
    Option SocketEntry :=
  match (if if_addr != "0.0.0.0" then
      -- first try to find an interface and cast specific socket
      match scanSockets (fun entry =>
          ((entry.direction &&& F.RECV) != 0 && (entry.type &&& type) == type)
            && entry.interface_address == if_addr) sockets with
      | some entry => some entry
      | none =>
        -- then try to find an interface specific socket
        scanSockets (fun entry =>
          ((entry.direction &&& F.RECV) != 0 && (entry.type &&& type) != 0)
            && entry.interface_address == if_addr) sockets
    else none) with
  | some entry => some entry
  | none =>
    -- try to find an INADDR_ANY socket
    match scanSockets (fun entry =>
        ((entry.direction &&& F.RECV) != 0 && (entry.type &&& type) == type)
          && entry.interface_address == "0.0.0.0") sockets with
    | some entry => some entry
    | none => sockets.head?

/-- One of the three loops of `getRecvSockets`: for each address the receive socket for
the cast type `t` is resolved and appended unless a socket with the same file descriptor
is already in `recv_sockets`. -/
def appendRecvSockets (F : Flags) (sockets : List SocketEntry) (t : Nat) :
    List String → List SpeedwireSocket → Option (List SpeedwireSocket)
  | [], recv_sockets => some recv_sockets
  | addr :: rest, recv_sockets =>
    match getRecvSocket F sockets t addr with
    | none => none
    | some entry =>
      let duplicate :=
        recv_sockets.any (fun recv_socket =>
          entry.socket.getSocketFd == recv_socket.getSocketFd)
      appendRecvSockets F sockets t rest
        (if duplicate == false then recv_sockets ++ [entry.socket] else recv_sockets)

/-- `SpeedwireSocketFactory::getRecvSockets`. -/
def getRecvSockets (F : Flags) (strategy : Strategy) (sockets : List SocketEntry)
    (type : Nat) (if_addresses : List String) : Option (List SpeedwireSocket) :=
  if (type &&& F.MULTICAST) == type
      && strategy == .ONE_MULTICAST_SOCKET_AND_ONE_UNICAST_SOCKET_FOR_EACH_INTERFACE then
    match getRecvSocket F sockets F.MULTICAST "0.0.0.0" with
    | none => none
    | some entry => some [entry.socket]
  else
    let step (t : Nat) (acc : Option (List SpeedwireSocket)) :
        Option (List SpeedwireSocket) :=
      match acc with
      | none => none
      | some recv_sockets =>
        if (type &&& t) != 0 then appendRecvSockets F sockets t if_addresses recv_sockets
        else some recv_sockets
    step F.ANYCAST (step F.MULTICAST (step F.UNICAST (some [])))

/-! ## Socket factory: the lookup procedures as the specification words them -/

/-- The send procedure in the words of the specification, over a test `m entryType
requested` on the cast-type bitmasks: first match bound to the requested address (unless
it is the wildcard), else first match bound to the wildcard, else the first entry. -/
def sendProcedure (F : Flags) (m : Nat → Nat → Bool) (sockets : List SocketEntry)
    (castType : Nat) (interfaceAddress : String) : Option SocketEntry :=
  let sendCapable (e : SocketEntry) : Bool := e.direction &&& F.SEND != 0
  let step1 :=
    if interfaceAddress = "0.0.0.0" then none
    else sockets.find? (fun e =>
      sendCapable e && m e.type castType && e.interface_address == interfaceAddress)
  let step2 :=
    sockets.find? (fun e =>
      sendCapable e && m e.type castType && e.interface_address == "0.0.0.0")
  (step1.or step2).or sockets.head?

/-- The receive procedure in the words of the specification, over a test `m entryType
requested` used by tiers 1 and 3; tier 2 tests that the bitmasks overlap. -/
def recvProcedure (F : Flags) (m : Nat → Nat → Bool) (sockets : List SocketEntry)
    (castType : Nat) (interfaceAddress : String) : Option SocketEntry :=
  let recvCapable (e : SocketEntry) : Bool := e.direction &&& F.RECV != 0
  let tier1 :=
    if interfaceAddress = "0.0.0.0" then none
    else sockets.find? (fun e =>
      recvCapable e && m e.type castType && e.interface_address == interfaceAddress)
  let tier2 :=
    if interfaceAddress = "0.0.0.0" then none
    else sockets.find? (fun e =>
      recvCapable e && (e.type &&& castType != 0) && e.interface_address == interfaceAddress)
  let tier3 :=
    sockets.find? (fun e =>
      recvCapable e && m e.type castType && e.interface_address == "0.0.0.0")
  ((tier1.or tier2).or tier3).or sockets.head?

/-- The cast-type bitmask is exactly equal to the requested one. -/
def exactlyEqual (entryType requested : Nat) : Bool := entryType == requested

/-- The cast-type bitmask contains every bit of the requested one. -/
def containsAll (entryType requested : Nat) : Bool := entryType &&& requested == requested


/-- The registry entry contributed by the open attempt numbered `p.1` on the address
`p.2`: none when the open fails. -/
def openAttempt (F : Flags) (os : OpenOracle) (direction type : Nat) (p : Nat × String) :
    Option SocketEntry :=
  (os p.1 p.2 ((type &&& F.MULTICAST) != 0)).map (fun s => ⟨s, direction, type, p.2⟩)

/-- The registry the default mixed strategy builds over the single local address
`10.0.0.1` when every open succeeds: a unicast entry for the interface, then the shared
wildcard entry. -/
def mixedRegistry : List SocketEntry :=
  (construct bitFlags (fun n _ _ => some ⟨n + 3⟩) ["10.0.0.1"]
    .ONE_MULTICAST_SOCKET_AND_ONE_UNICAST_SOCKET_FOR_EACH_INTERFACE).sockets

/-! ## Obis data: data model -/

/-- The class `ObisType`: the four identifier fields, each a `uint8_t` in the source;
a statement that depends on the range says so by a bound below 256. -/
structure ObisType where
  channel : Nat
  index : Nat
  type : Nat
  tariff : Nat
  deriving DecidableEq

/-- Modelled from the spec: the unit descriptor `MeasurementType`, declared in a header
that is not among the sources; the encoding reads its integer `divisor` only. -/
structure MeasurementType where
  name : String
  unit : String
  divisor : Nat
  deriving DecidableEq

/-- Modelled from the spec: the decoded value slot `MeasurementValue`, declared in a header
that is not among the sources: a timestamp, the physical value and a textual
representation. The `double` value is represented by an exact rational. -/
structure MeasurementValue where
  timer : Nat
  value : ℚ
  value_string : String
  deriving DecidableEq

/-- Modelled from the spec: the line designator `Line`. -/
inductive Line where
  | TOTAL
  | L1
  | L2
  | L3
  | NO_LINE
  deriving DecidableEq

/-- The class `ObisData`, which inherits the identifier fields of `ObisType`. -/
structure ObisData extends ObisType where
  measurementType : MeasurementType
  line : Line
  description : String
  measurementValue : MeasurementValue
  deriving DecidableEq

/-! ## Obis data: identifiers -/

/-- `ObisType::equals`. -/
def ObisType.equals (self other : ObisType) : Bool :=
  self.channel == other.channel && self.index == other.index && self.type == other.type
    && self.tariff == other.tariff

/-- The conversion `%d` of a non-negative argument. -/
def formatDecimal (n : Nat) : List Char := Nat.toDigits 10 n

/-- The conversion `%0<width>d` of a non-negative argument: zeros are put in front until
the field has `width` characters. -/
def formatDecimalZeroPad (width n : Nat) : List Char :=
  List.replicate (width - (formatDecimal n).length) '0' ++ formatDecimal n

/-- `ObisType::toString`: `snprintf` into `char str[16]` with the format
`%d.%02d.%d.%d` keeps at most 15 characters. -/
def ObisType.toString (self : ObisType) : String :=
  String.mk
    ((formatDecimal self.channel ++ '.' :: formatDecimalZeroPad 2 self.index
      ++ '.' :: formatDecimal self.type ++ '.' :: formatDecimal self.tariff).take (16 - 1))

/-- `ObisType::toByteArray`. -/
def ObisType.toByteArray (self : ObisType) : List Nat :=
  [self.channel, self.index, self.type, self.tariff,
    0xff, 0xff, 0xff, 0xff, 0xff, 0xff, 0xff, 0xff]

/-- `ObisData::equals`, which passes on to the base class. -/
def ObisData.equals (self : ObisData) (other : ObisType) : Bool :=
  self.toObisType.equals other

/-! ## Obis data: the `sscanf` conversions used on the firmware version -/

/-- The characters `isspace` accepts in the C locale. -/
def isSpace (c : Char) : Bool :=
  c == ' ' || (9 ≤ c.toNat && c.toNat ≤ 13)

/-- A conversion first skips white space. -/
def skipSpace : List Char → List Char
  | [] => []
  | c :: cs => if isSpace c then skipSpace cs else c :: cs

/-- The value of a hexadecimal digit, none for any other character. -/
def hexValue (c : Char) : Option Nat :=
  if c.isDigit then some (c.toNat - 48)
  else if 97 ≤ c.toNat && c.toNat ≤ 102 then some (c.toNat - 87)
  else if 65 ≤ c.toNat && c.toNat ≤ 70 then some (c.toNat - 55)
  else none

/-- The value of a digit in the given base (10 or 16), none for any other character. -/
def digitValue (base : Nat) (c : Char) : Option Nat :=
  if base = 16 then hexValue c else if c.isDigit then some (c.toNat - 48) else none

/-- Reads digits of the given base while the field width (none: unlimited) allows:
returns the accumulated value, the number of digits read and the unread input. -/
def scanDigits (base : Nat) : Option Nat → Nat → Nat → List Char → Nat × Nat × List Char
  | _, acc, count, [] => (acc, count, [])
  | width, acc, count, c :: cs =>
    if width = some 0 then (acc, count, c :: cs)
    else
      match digitValue base c with
      | none => (acc, count, c :: cs)
      | some v => scanDigits base (width.map (fun w => w - 1)) (acc * base + v) (count + 1) cs

/-- Reads the optional sign of an integer conversion when the field width allows:
returns whether the sign is a minus, the width that is left and the unread input. -/
def scanSign (width : Option Nat) : List Char → Bool × Option Nat × List Char
  | [] => (false, width, [])
  | c :: cs =>
    if (c == '-' || c == '+') && width != some 0 then
      (c == '-', width.map (fun w => w - 1), cs)
    else (false, width, c :: cs)

/-- Reads the optional prefix `0x` of a hexadecimal conversion when the field width
allows: returns the width that is left and the unread input. -/
def scanHexLead (base : Nat) (width : Option Nat) : List Char → Option Nat × List Char
  | c0 :: c1 :: cs =>
    if base = 16 && c0 == '0' && (c1 == 'x' || c1 == 'X')
        && width != some 0 && width != some 1 then
      (width.map (fun w => w - 2), cs)
    else (width, c0 :: c1 :: cs)
  | rest => (width, rest)

/-- An integer conversion of `sscanf` into an `unsigned int` (`%u` for base 10, `%x` for
base 16, with an optional maximum field width): white space is skipped, then an optional
sign, for base 16 an optional prefix `0x`, and at least one digit are read, all within
the field width. The result is the converted value and the unread input, none on a
matching failure. A negative or too large value is reduced modulo 2^32. -/
def scanInteger (base : Nat) (width : Option Nat) (input : List Char) :
    Option (Nat × List Char) :=
  let afterSign := scanSign width (skipSpace input)
  let negative := afterSign.1
  let afterLead := scanHexLead base afterSign.2.1 afterSign.2.2
  let r := scanDigits base afterLead.1 0 0 afterLead.2
  if r.2.1 = 0 then none
  else some ((if negative then 2 ^ 32 - r.1 % 2 ^ 32 else r.1) % 2 ^ 32, r.2.2)

/-- The conversions of a format `c.c.c.c` that are still to do (`fields` of them): each
conversion `conv` stores one value, and between two conversions the input must continue
with a dot. The result lists the values stored, in order, up to the first failure. -/
def scanFields (conv : List Char → Option (Nat × List Char)) : Nat → List Char → List Nat
  | 0, _ => []
  | fields + 1, input =>
    match conv input with
    | none => []
    | some (v, rest) =>
      if fields = 0 then [v]
      else
        match rest with
        | '.' :: rest1 => v :: scanFields conv fields rest1
        | _ => [v]

/-- The string `c_str()` hands to `sscanf`: the characters before the first NUL. -/
def c_str (s : String) : List Char := s.data.takeWhile (fun c => c.toNat != 0)

/-- A call `sscanf(text, "c.c.c.c", &int_array[3], &int_array[2], &int_array[1],
&int_array[0])` with four conversions `conv`: the return value (EOF, which is -1, when the
input ends before the first conversion) and the array after the call, written
`(int_array[0], int_array[1], int_array[2], int_array[3])`. Only the values converted
before the first failure are stored. -/
def sscanf4 (conv : List Char → Option (Nat × List Char)) (text : List Char)
    (int_array : Nat × Nat × Nat × Nat) : Int × (Nat × Nat × Nat × Nat) :=
  let stored := scanFields conv 4 text
  let n : Int := if stored = [] ∧ skipSpace text = [] then -1 else stored.length
  (n, (stored.getD 3 int_array.1, stored.getD 2 int_array.2.1,
    stored.getD 1 int_array.2.2.1, stored.getD 0 int_array.2.2.2))

/-! ## Obis data: the byte encoding -/

/-- Modelled from the spec: `SpeedwireEmeterProtocol::setObisValue4`, defined in a file
that is not among the sources: the value is written big-endian into the 4-byte value
field that follows the four identifier bytes. -/
def setObisValue4 (bytes : List Nat) (value : Nat) : List Nat :=
  bytes.take 4
    ++ [value / 2 ^ 24 % 256, value / 2 ^ 16 % 256, value / 2 ^ 8 % 256, value % 256]
    ++ bytes.drop 8

/-- Modelled from the spec: `SpeedwireEmeterProtocol::setObisValue8`, defined in a file
that is not among the sources: the value is written big-endian into the 8-byte value
field that follows the four identifier bytes. -/
def setObisValue8 (bytes : List Nat) (value : Nat) : List Nat :=
  bytes.take 4
    ++ [value / 2 ^ 56 % 256, value / 2 ^ 48 % 256, value / 2 ^ 40 % 256,
        value / 2 ^ 32 % 256, value / 2 ^ 24 % 256, value / 2 ^ 16 % 256,
        value / 2 ^ 8 % 256, value % 256]
    ++ bytes.drop 12

/-- The conversion of a `double`, here an exact rational, to an unsigned integer of
`bits` bits: the fraction is discarded (truncation toward zero); the conversion is
undefined, none, when the truncated value is not in the range of the type. -/
def castUnsigned (bits : Nat) (x : ℚ) : Option Nat :=
  let t : Int := x.num.tdiv x.den
  if 0 ≤ t ∧ t < 2 ^ bits then some t.toNat else none

/-- The exact product of two rationals: the multiplication of `double`s without its
rounding. -/
def exactMul (a b : ℚ) : ℚ := a * b

/-- `ObisData::toByteArray`; none when a conversion in it is undefined. The argument
`fmul` is the multiplication of two `double`s as the machine rounds it, of which
`exactMul` is the instance without rounding. -/
def ObisData.toByteArray (fmul : ℚ → ℚ → ℚ) (self : ObisData) : Option (List Nat) :=
  let byte_array := self.toObisType.toByteArray
  match self.type with
  | 0 =>
    if self.channel == 144 then
      -- convert software version
      let int_array : Nat × Nat × Nat × Nat := (0xff, 0xff, 0xff, 0xff)
      let text := c_str self.measurementValue.value_string
      let first := sscanf4 (scanInteger 10 none) text int_array
      let int_array :=
        if first.1 != 4 then (sscanf4 (scanInteger 16 (some 2)) text first.2).2 else first.2
      let value :=
        (int_array.2.2.2 <<< 24) % 2 ^ 32 ||| (int_array.2.2.1 <<< 16) % 2 ^ 32
          ||| (int_array.2.1 <<< 8) % 2 ^ 32 ||| int_array.1
      some (setObisValue4 byte_array value)
    else if self.channel == 0 && self.index == 0 && self.tariff == 0 then
      some (setObisValue4 byte_array 0)
    else some byte_array
  | 4 | 7 =>
    (castUnsigned 32
        (fmul self.measurementValue.value (self.measurementType.divisor : ℚ))).map
      (setObisValue4 byte_array)
  | 8 =>
    (castUnsigned 64
        (fmul self.measurementValue.value (self.measurementType.divisor : ℚ))).map
      (setObisValue8 byte_array)
  | _ => some byte_array

/-- The predefined record `ObisData::SoftwareVersion` (144, 0, 0, 0) holding the textual
value `text`. -/
def firmwareRecord (text : String) : ObisData :=
  ⟨⟨144, 0, 0, 0⟩, ⟨"software version", "", 1⟩, .NO_LINE, "software version", ⟨0, 0, text⟩⟩

/-- A record with the given identifier, divisor and decoded value, on the total line. -/
def measurementRecord (channel index type tariff divisor : Nat) (value : ℚ) : ObisData :=
  ⟨⟨channel, index, type, tariff⟩, ⟨"", "", divisor⟩, .TOTAL, "", ⟨0, value, ""⟩⟩


/-! ## Socket factory: the singleton -/

/-- The class `SpeedwireSocketFactory`: the local addresses its `localhost` reports, the
strategy, and the registry together with the count of opens made for it. -/
structure SpeedwireSocketFactory where
  localhost : List String
  strategy : Strategy
  state : FactoryState
  deriving DecidableEq

/-- `SpeedwireSocketFactory::getInstance(localhost, strategy)`: the first argument is the
static variable `instance` before the call (none for NULL); the result is the returned
pointer, given as the object it points to, and the static variable after the call. -/
def getInstance (F : Flags) (os : OpenOracle) (theInstance : Option SpeedwireSocketFactory)
    (localhost : List String) (strategy : Strategy) :
    SpeedwireSocketFactory × Option SpeedwireSocketFactory :=
  match theInstance with
  | none =>
    let created : SpeedwireSocketFactory :=
      ⟨localhost, strategy, construct F os localhost strategy⟩
    (created, some created)
  | some existing => (existing, some existing)

/-- `SpeedwireSocketFactory::getInstance(localhost)`, which chooses the mixed strategy on
every host operating system. -/
def getInstanceDefault (F : Flags) (os : OpenOracle)
    (theInstance : Option SpeedwireSocketFactory) (localhost : List String) :
    SpeedwireSocketFactory × Option SpeedwireSocketFactory :=
  getInstance F os theInstance localhost
    .ONE_MULTICAST_SOCKET_AND_ONE_UNICAST_SOCKET_FOR_EACH_INTERFACE

/-! ## Socket factory: construction and batch lookup as the specification words them -/

/-- The sockets a strategy requires, as (direction, cast type, bound address), in the
order in which the constructor attempts to open them. -/
def requiredSockets (F : Flags) (localIPs : List String) :
    Strategy → List (Nat × Nat × String)
  | .ONE_SOCKET_FOR_EACH_INTERFACE =>
    localIPs.map (fun ip => (F.SEND ||| F.RECV, F.MULTICAST ||| F.UNICAST, ip))
  | .ONE_SINGLE_SOCKET => [(F.SEND ||| F.RECV, F.MULTICAST ||| F.UNICAST, "0.0.0.0")]
  | .ONE_MULTICAST_SOCKET_AND_ONE_UNICAST_SOCKET_FOR_EACH_INTERFACE =>
    localIPs.map (fun ip => (F.SEND ||| F.RECV, F.UNICAST, ip))
      ++ [(F.SEND ||| F.RECV, F.MULTICAST ||| F.UNICAST, "0.0.0.0")]
  | .ONE_UNICAST_SOCKET_FOR_EACH_INTERFACE =>
    localIPs.map (fun ip => (F.SEND ||| F.RECV, F.UNICAST, ip))

/-- The entry recorded for the open attempt numbered `p.1` of the required socket `p.2`:
none when the open fails. -/
def recordedEntry (F : Flags) (os : OpenOracle) (p : Nat × Nat × Nat × String) :
    Option SocketEntry :=
  (os p.1 p.2.2.2 ((p.2.2.1 &&& F.MULTICAST) != 0)).map
    (fun s => ⟨s, p.2.1, p.2.2.1, p.2.2.2⟩)

/-- Keeps only the first occurrence of each socket identity: the head stays, and every
later socket with the file descriptor of the head is dropped. -/
def keepFirstFd : List SpeedwireSocket → List SpeedwireSocket
  | [] => []
  | s :: rest => s :: (keepFirstFd rest).filter (fun r => r.getSocketFd != s.getSocketFd)

/-- The sockets `getRecvSocket` resolves for the cast type `t`, one per address, when the
requested type has a bit in common with `t`; no socket otherwise. -/
def resolvedFor (F : Flags) (sockets : List SocketEntry) (type t : Nat)
    (if_addresses : List String) : List SpeedwireSocket :=
  if type &&& t = 0 then []
  else if_addresses.filterMap (fun a => (getRecvSocket F sockets t a).map (fun e => e.socket))

/-! ## Speedwire header -/

/-- The constant `sma_signature`, the characters `SMA` and a NUL. -/
def sma_signature : List Nat := [0x53, 0x4d, 0x41, 0x00]

/-- The constant `sma_tag0`: length 0x0004, tag 0x02a0. -/
def sma_tag0 : List Nat := [0x00, 0x04, 0x02, 0xa0]

/-- The constant `sma_net_v2`. -/
def sma_net_v2 : List Nat := [0x00, 0x10]

/-- The constant `sma_signature_offset`. -/
def sma_signature_offset : Nat := 0

/-- The constant `sma_tag0_offset`, with `sizeof(sma_signature)` the length of the array. -/
def sma_tag0_offset : Nat := sma_signature.length

/-- The constant `sma_group_offset`. -/
def sma_group_offset : Nat := sma_tag0_offset + sma_tag0.length

/-- The constant `sma_length_offset`. -/
def sma_length_offset : Nat := sma_group_offset + 4

/-- The constant `sma_netversion_offset`. -/
def sma_netversion_offset : Nat := sma_length_offset + 2

/-- The constant `sma_protocol_offset`. -/
def sma_protocol_offset : Nat := sma_netversion_offset + sma_net_v2.length

/-- The constant `sma_protocol_size`. -/
def sma_protocol_size : Nat := 2

/-- The constant `sma_long_words_offset`. -/
def sma_long_words_offset : Nat := sma_protocol_offset + sma_protocol_size

/-- The constant `sma_control_offset`. -/
def sma_control_offset : Nat := sma_long_words_offset + 1

/-- The constant `sma_control_size`. -/
def sma_control_size : Nat := 1

/-- The class `SpeedwireHeader`: a view on the bytes of a udp packet and their number. -/
structure SpeedwireHeader where
  udp : List Nat
  size : Nat
  deriving DecidableEq

/-- The bytes of a field: `width` bytes of the packet from `offset` on. -/
def SpeedwireHeader.field (self : SpeedwireHeader) (offset width : Nat) : List Nat :=
  (self.udp.drop offset).take width

/-- Modelled from the spec: `SpeedwireHeader::getPayloadOffset`, which is declared in the
header file and defined in a file that is not among the sources: it returns the fixed byte
offset where payload data begins, for which the spec gives the constant 24. -/
def SpeedwireHeader.getPayloadOffset (_self : SpeedwireHeader) : Nat :=
  24

/-- Modelled from the spec: `SpeedwireHeader::checkHeader`, which is declared in the header
file and defined in a file that is not among the sources: it returns true iff both magic
fields, the signature and tag0, match their fixed constants. -/
def SpeedwireHeader.checkHeader (self : SpeedwireHeader) : Bool :=
  self.field sma_signature_offset sma_signature.length == sma_signature
    && self.field sma_tag0_offset sma_tag0.length == sma_tag0

/-! ## Obis data: the predefined records -/

/-- Modelled from the spec: the static functions `MeasurementType::Emeter...()` that the
predefined records are built from, the method `MeasurementType::getFullName` and the value
slot a new `MeasurementValue()` holds. They are declared in headers that are not among the
sources and are taken as a parameter. -/
structure MeasurementTypes where
  EmeterPositiveActivePower : MeasurementType
  EmeterPositiveActiveEnergy : MeasurementType
  EmeterNegativeActivePower : MeasurementType
  EmeterNegativeActiveEnergy : MeasurementType
  EmeterPositiveReactivePower : MeasurementType
  EmeterPositiveReactiveEnergy : MeasurementType
  EmeterNegativeReactivePower : MeasurementType
  EmeterNegativeReactiveEnergy : MeasurementType
  EmeterPositiveApparentPower : MeasurementType
  EmeterPositiveApparentEnergy : MeasurementType
  EmeterNegativeApparentPower : MeasurementType
  EmeterNegativeApparentEnergy : MeasurementType
  EmeterPowerFactor : MeasurementType
  EmeterCurrent : MeasurementType
  EmeterVoltage : MeasurementType
  EmeterSoftwareVersion : MeasurementType
  EmeterEndOfData : MeasurementType
  EmeterSignedActivePower : MeasurementType
  getFullName : MeasurementType → Line → String
  newValue : MeasurementValue

/-- The constructor `ObisData::ObisData(channel, index, type, tariff, mType, lin)`. -/
def ObisData.new (M : MeasurementTypes) (channel index type tariff : Nat)
    (mType : MeasurementType) (lin : Line) : ObisData :=
  ⟨⟨channel, index, type, tariff⟩, mType, lin, M.getFullName mType lin, M.newValue⟩

/-- The predefined instance `ObisData::PositiveActivePowerTotal`. -/
def ObisData.PositiveActivePowerTotal (M : MeasurementTypes) : ObisData :=
  ObisData.new M 0 1 4 0 M.EmeterPositiveActivePower .TOTAL

/-- The predefined instance `ObisData::PositiveActivePowerL1`. -/
def ObisData.PositiveActivePowerL1 (M : MeasurementTypes) : ObisData :=
  ObisData.new M 0 21 4 0 M.EmeterPositiveActivePower .L1

/-- The predefined instance `ObisData::PositiveActivePowerL2`. -/
def ObisData.PositiveActivePowerL2 (M : MeasurementTypes) : ObisData :=
  ObisData.new M 0 41 4 0 M.EmeterPositiveActivePower .L2

/-- The predefined instance `ObisData::PositiveActivePowerL3`. -/
def ObisData.PositiveActivePowerL3 (M : MeasurementTypes) : ObisData :=
  ObisData.new M 0 61 4 0 M.EmeterPositiveActivePower .L3

/-- The predefined instance `ObisData::PositiveActiveEnergyTotal`. -/
def ObisData.PositiveActiveEnergyTotal (M : MeasurementTypes) : ObisData :=
  ObisData.new M 0 1 8 0 M.EmeterPositiveActiveEnergy .TOTAL

/-- The predefined instance `ObisData::PositiveActiveEnergyL1`. -/
def ObisData.PositiveActiveEnergyL1 (M : MeasurementTypes) : ObisData :=
  ObisData.new M 0 21 8 0 M.EmeterPositiveActiveEnergy .L1

/-- The predefined instance `ObisData::PositiveActiveEnergyL2`. -/
def ObisData.PositiveActiveEnergyL2 (M : MeasurementTypes) : ObisData :=
  ObisData.new M 0 41 8 0 M.EmeterPositiveActiveEnergy .L2

/-- The predefined instance `ObisData::PositiveActiveEnergyL3`. -/
def ObisData.PositiveActiveEnergyL3 (M : MeasurementTypes) : ObisData :=
  ObisData.new M 0 61 8 0 M.EmeterPositiveActiveEnergy .L3

/-- The predefined instance `ObisData::NegativeActivePowerTotal`. -/
def ObisData.NegativeActivePowerTotal (M : MeasurementTypes) : ObisData :=
  ObisData.new M 0 2 4 0 M.EmeterNegativeActivePower .TOTAL

/-- The predefined instance `ObisData::NegativeActivePowerL1`. -/
def ObisData.NegativeActivePowerL1 (M : MeasurementTypes) : ObisData :=
  ObisData.new M 0 22 4 0 M.EmeterNegativeActivePower .L1

/-- The predefined instance `ObisData::NegativeActivePowerL2`. -/
def ObisData.NegativeActivePowerL2 (M : MeasurementTypes) : ObisData :=
  ObisData.new M 0 42 4 0 M.EmeterNegativeActivePower .L2

/-- The predefined instance `ObisData::NegativeActivePowerL3`. -/
def ObisData.NegativeActivePowerL3 (M : MeasurementTypes) : ObisData :=
  ObisData.new M 0 62 4 0 M.EmeterNegativeActivePower .L3

/-- The predefined instance `ObisData::NegativeActiveEnergyTotal`. -/
def ObisData.NegativeActiveEnergyTotal (M : MeasurementTypes) : ObisData :=
  ObisData.new M 0 2 8 0 M.EmeterNegativeActiveEnergy .TOTAL

/-- The predefined instance `ObisData::NegativeActiveEnergyL1`. -/
def ObisData.NegativeActiveEnergyL1 (M : MeasurementTypes) : ObisData :=
  ObisData.new M 0 22 8 0 M.EmeterNegativeActiveEnergy .L1

/-- The predefined instance `ObisData::NegativeActiveEnergyL2`. -/
def ObisData.NegativeActiveEnergyL2 (M : MeasurementTypes) : ObisData :=
  ObisData.new M 0 42 8 0 M.EmeterNegativeActiveEnergy .L2

/-- The predefined instance `ObisData::NegativeActiveEnergyL3`. -/
def ObisData.NegativeActiveEnergyL3 (M : MeasurementTypes) : ObisData :=
  ObisData.new M 0 62 8 0 M.EmeterNegativeActiveEnergy .L3

/-- The predefined instance `ObisData::PositiveReactivePowerTotal`. -/
def ObisData.PositiveReactivePowerTotal (M : MeasurementTypes) : ObisData :=
  ObisData.new M 0 3 4 0 M.EmeterPositiveReactivePower .TOTAL

/-- The predefined instance `ObisData::PositiveReactivePowerL1`. -/
def ObisData.PositiveReactivePowerL1 (M : MeasurementTypes) : ObisData :=
  ObisData.new M 0 23 4 0 M.EmeterPositiveReactivePower .L1

/-- The predefined instance `ObisData::PositiveReactivePowerL2`. -/
def ObisData.PositiveReactivePowerL2 (M : MeasurementTypes) : ObisData :=
  ObisData.new M 0 43 4 0 M.EmeterPositiveReactivePower .L2

/-- The predefined instance `ObisData::PositiveReactivePowerL3`. -/
def ObisData.PositiveReactivePowerL3 (M : MeasurementTypes) : ObisData :=
  ObisData.new M 0 63 4 0 M.EmeterPositiveReactivePower .L3

/-- The predefined instance `ObisData::PositiveReactiveEnergyTotal`. -/
def ObisData.PositiveReactiveEnergyTotal (M : MeasurementTypes) : ObisData :=
  ObisData.new M 0 3 8 0 M.EmeterPositiveReactiveEnergy .TOTAL

/-- The predefined instance `ObisData::PositiveReactiveEnergyL1`. -/
def ObisData.PositiveReactiveEnergyL1 (M : MeasurementTypes) : ObisData :=
  ObisData.new M 0 23 8 0 M.EmeterPositiveReactiveEnergy .L1

/-- The predefined instance `ObisData::PositiveReactiveEnergyL2`. -/
def ObisData.PositiveReactiveEnergyL2 (M : MeasurementTypes) : ObisData :=
  ObisData.new M 0 43 8 0 M.EmeterPositiveReactiveEnergy .L2

/-- The predefined instance `ObisData::PositiveReactiveEnergyL3`. -/
def ObisData.PositiveReactiveEnergyL3 (M : MeasurementTypes) : ObisData :=
  ObisData.new M 0 63 8 0 M.EmeterPositiveReactiveEnergy .L3

/-- The predefined instance `ObisData::NegativeReactivePowerTotal`. -/
def ObisData.NegativeReactivePowerTotal (M : MeasurementTypes) : ObisData :=
  ObisData.new M 0 4 4 0 M.EmeterNegativeReactivePower .TOTAL

/-- The predefined instance `ObisData::NegativeReactivePowerL1`. -/
def ObisData.NegativeReactivePowerL1 (M : MeasurementTypes) : ObisData :=
  ObisData.new M 0 24 4 0 M.EmeterNegativeReactivePower .L1

/-- The predefined instance `ObisData::NegativeReactivePowerL2`. -/
def ObisData.NegativeReactivePowerL2 (M : MeasurementTypes) : ObisData :=
  ObisData.new M 0 44 4 0 M.EmeterNegativeReactivePower .L2

/-- The predefined instance `ObisData::NegativeReactivePowerL3`. -/
def ObisData.NegativeReactivePowerL3 (M : MeasurementTypes) : ObisData :=
  ObisData.new M 0 64 4 0 M.EmeterNegativeReactivePower .L3

/-- The predefined instance `ObisData::NegativeReactiveEnergyTotal`. -/
def ObisData.NegativeReactiveEnergyTotal (M : MeasurementTypes) : ObisData :=
  ObisData.new M 0 4 8 0 M.EmeterNegativeReactiveEnergy .TOTAL

/-- The predefined instance `ObisData::NegativeReactiveEnergyL1`. -/
def ObisData.NegativeReactiveEnergyL1 (M : MeasurementTypes) : ObisData :=
  ObisData.new M 0 24 8 0 M.EmeterNegativeReactiveEnergy .L1

/-- The predefined instance `ObisData::NegativeReactiveEnergyL2`. -/
def ObisData.NegativeReactiveEnergyL2 (M : MeasurementTypes) : ObisData :=
  ObisData.new M 0 44 8 0 M.EmeterNegativeReactiveEnergy .L2

/-- The predefined instance `ObisData::NegativeReactiveEnergyL3`. -/
def ObisData.NegativeReactiveEnergyL3 (M : MeasurementTypes) : ObisData :=
  ObisData.new M 0 64 8 0 M.EmeterNegativeReactiveEnergy .L3

/-- The predefined instance `ObisData::PositiveApparentPowerTotal`. -/
def ObisData.PositiveApparentPowerTotal (M : MeasurementTypes) : ObisData :=
  ObisData.new M 0 9 4 0 M.EmeterPositiveApparentPower .TOTAL

/-- The predefined instance `ObisData::PositiveApparentPowerL1`. -/
def ObisData.PositiveApparentPowerL1 (M : MeasurementTypes) : ObisData :=
  ObisData.new M 0 29 4 0 M.EmeterPositiveApparentPower .L1

/-- The predefined instance `ObisData::PositiveApparentPowerL2`. -/
def ObisData.PositiveApparentPowerL2 (M : MeasurementTypes) : ObisData :=
  ObisData.new M 0 49 4 0 M.EmeterPositiveApparentPower .L2

/-- The predefined instance `ObisData::PositiveApparentPowerL3`. -/
def ObisData.PositiveApparentPowerL3 (M : MeasurementTypes) : ObisData :=
  ObisData.new M 0 69 4 0 M.EmeterPositiveApparentPower .L3

/-- The predefined instance `ObisData::PositiveApparentEnergyTotal`. -/
def ObisData.PositiveApparentEnergyTotal (M : MeasurementTypes) : ObisData :=
  ObisData.new M 0 9 8 0 M.EmeterPositiveApparentEnergy .TOTAL

/-- The predefined instance `ObisData::PositiveApparentEnergyL1`. -/
def ObisData.PositiveApparentEnergyL1 (M : MeasurementTypes) : ObisData :=
  ObisData.new M 0 29 8 0 M.EmeterPositiveApparentEnergy .L1

/-- The predefined instance `ObisData::PositiveApparentEnergyL2`. -/
def ObisData.PositiveApparentEnergyL2 (M : MeasurementTypes) : ObisData :=
  ObisData.new M 0 49 8 0 M.EmeterPositiveApparentEnergy .L2

/-- The predefined instance `ObisData::PositiveApparentEnergyL3`. -/
def ObisData.PositiveApparentEnergyL3 (M : MeasurementTypes) : ObisData :=
  ObisData.new M 0 69 8 0 M.EmeterPositiveApparentEnergy .L3

/-- The predefined instance `ObisData::NegativeApparentPowerTotal`. -/
def ObisData.NegativeApparentPowerTotal (M : MeasurementTypes) : ObisData :=
  ObisData.new M 0 10 4 0 M.EmeterNegativeApparentPower .TOTAL

/-- The predefined instance `ObisData::NegativeApparentPowerL1`. -/
def ObisData.NegativeApparentPowerL1 (M : MeasurementTypes) : ObisData :=
  ObisData.new M 0 30 4 0 M.EmeterNegativeApparentPower .L1

/-- The predefined instance `ObisData::NegativeApparentPowerL2`. -/
def ObisData.NegativeApparentPowerL2 (M : MeasurementTypes) : ObisData :=
  ObisData.new M 0 50 4 0 M.EmeterNegativeApparentPower .L2

/-- The predefined instance `ObisData::NegativeApparentPowerL3`. -/
def ObisData.NegativeApparentPowerL3 (M : MeasurementTypes) : ObisData :=
  ObisData.new M 0 70 4 0 M.EmeterNegativeApparentPower .L3

/-- The predefined instance `ObisData::NegativeApparentEnergyTotal`. -/
def ObisData.NegativeApparentEnergyTotal (M : MeasurementTypes) : ObisData :=
  ObisData.new M 0 10 8 0 M.EmeterNegativeApparentEnergy .TOTAL

/-- The predefined instance `ObisData::NegativeApparentEnergyL1`. -/
def ObisData.NegativeApparentEnergyL1 (M : MeasurementTypes) : ObisData :=
  ObisData.new M 0 30 8 0 M.EmeterNegativeApparentEnergy .L1

/-- The predefined instance `ObisData::NegativeApparentEnergyL2`. -/
def ObisData.NegativeApparentEnergyL2 (M : MeasurementTypes) : ObisData :=
  ObisData.new M 0 50 8 0 M.EmeterNegativeApparentEnergy .L2

/-- The predefined instance `ObisData::NegativeApparentEnergyL3`. -/
def ObisData.NegativeApparentEnergyL3 (M : MeasurementTypes) : ObisData :=
  ObisData.new M 0 70 8 0 M.EmeterNegativeApparentEnergy .L3

/-- The predefined instance `ObisData::PowerFactorTotal`. -/
def ObisData.PowerFactorTotal (M : MeasurementTypes) : ObisData :=
  ObisData.new M 0 13 4 0 M.EmeterPowerFactor .TOTAL

/-- The predefined instance `ObisData::CurrentL1`. -/
def ObisData.CurrentL1 (M : MeasurementTypes) : ObisData :=
  ObisData.new M 0 31 4 0 M.EmeterCurrent .L1

/-- The predefined instance `ObisData::CurrentL2`. -/
def ObisData.CurrentL2 (M : MeasurementTypes) : ObisData :=
  ObisData.new M 0 51 4 0 M.EmeterCurrent .L2

/-- The predefined instance `ObisData::CurrentL3`. -/
def ObisData.CurrentL3 (M : MeasurementTypes) : ObisData :=
  ObisData.new M 0 71 4 0 M.EmeterCurrent .L3

/-- The predefined instance `ObisData::VoltageL1`. -/
def ObisData.VoltageL1 (M : MeasurementTypes) : ObisData :=
  ObisData.new M 0 32 4 0 M.EmeterVoltage .L1

/-- The predefined instance `ObisData::VoltageL2`. -/
def ObisData.VoltageL2 (M : MeasurementTypes) : ObisData :=
  ObisData.new M 0 52 4 0 M.EmeterVoltage .L2

/-- The predefined instance `ObisData::VoltageL3`. -/
def ObisData.VoltageL3 (M : MeasurementTypes) : ObisData :=
  ObisData.new M 0 72 4 0 M.EmeterVoltage .L3

/-- The predefined instance `ObisData::PowerFactorL1`. -/
def ObisData.PowerFactorL1 (M : MeasurementTypes) : ObisData :=
  ObisData.new M 0 33 4 0 M.EmeterPowerFactor .L1

/-- The predefined instance `ObisData::PowerFactorL2`. -/
def ObisData.PowerFactorL2 (M : MeasurementTypes) : ObisData :=
  ObisData.new M 0 53 4 0 M.EmeterPowerFactor .L2

/-- The predefined instance `ObisData::PowerFactorL3`. -/
def ObisData.PowerFactorL3 (M : MeasurementTypes) : ObisData :=
  ObisData.new M 0 73 4 0 M.EmeterPowerFactor .L3

/-- The predefined instance `ObisData::SoftwareVersion`. -/
def ObisData.SoftwareVersion (M : MeasurementTypes) : ObisData :=
  ObisData.new M 144 0 0 0 M.EmeterSoftwareVersion .NO_LINE

/-- The predefined instance `ObisData::EndOfData`. -/
def ObisData.EndOfData (M : MeasurementTypes) : ObisData :=
  ObisData.new M 0 0 0 0 M.EmeterEndOfData .NO_LINE

/-- The predefined instance `ObisData::SignedActivePowerTotal`. -/
def ObisData.SignedActivePowerTotal (M : MeasurementTypes) : ObisData :=
  ObisData.new M 0 16 7 0 M.EmeterSignedActivePower .TOTAL

/-- The predefined instance `ObisData::SignedActivePowerL1`. -/
def ObisData.SignedActivePowerL1 (M : MeasurementTypes) : ObisData :=
  ObisData.new M 0 36 7 0 M.EmeterSignedActivePower .L1

/-- The predefined instance `ObisData::SignedActivePowerL2`. -/
def ObisData.SignedActivePowerL2 (M : MeasurementTypes) : ObisData :=
  ObisData.new M 0 56 7 0 M.EmeterSignedActivePower .L2

/-- The predefined instance `ObisData::SignedActivePowerL3`. -/
def ObisData.SignedActivePowerL3 (M : MeasurementTypes) : ObisData :=
  ObisData.new M 0 76 7 0 M.EmeterSignedActivePower .L3

/-- `ObisData::getAllPredefined`: the predefined instances in the order of the
`push_back` calls. -/
def ObisData.getAllPredefined (M : MeasurementTypes) : List ObisData :=
  [
    -- totals
    ObisData.PositiveActivePowerTotal M,
    ObisData.PositiveActiveEnergyTotal M,
    ObisData.NegativeActivePowerTotal M,
    ObisData.NegativeActiveEnergyTotal M,
    ObisData.PositiveReactivePowerTotal M,
    ObisData.PositiveReactiveEnergyTotal M,
    ObisData.NegativeReactivePowerTotal M,
    ObisData.NegativeReactiveEnergyTotal M,
    ObisData.PositiveApparentPowerTotal M,
    ObisData.PositiveApparentEnergyTotal M,
    ObisData.NegativeApparentPowerTotal M,
    ObisData.NegativeApparentEnergyTotal M,
    ObisData.PowerFactorTotal M,
    -- line 1
    ObisData.PositiveActivePowerL1 M,
    ObisData.PositiveActiveEnergyL1 M,
    ObisData.NegativeActivePowerL1 M,
    ObisData.NegativeActiveEnergyL1 M,
    ObisData.PositiveReactivePowerL1 M,
    ObisData.PositiveReactiveEnergyL1 M,
    ObisData.NegativeReactivePowerL1 M,
    ObisData.NegativeReactiveEnergyL1 M,
    ObisData.PositiveApparentPowerL1 M,
    ObisData.PositiveApparentEnergyL1 M,
    ObisData.NegativeApparentPowerL1 M,
    ObisData.NegativeApparentEnergyL1 M,
    ObisData.CurrentL1 M,
    ObisData.VoltageL1 M,
    ObisData.PowerFactorL1 M,
    -- line 2
    ObisData.PositiveActivePowerL2 M,
    ObisData.PositiveActiveEnergyL2 M,
    ObisData.NegativeActivePowerL2 M,
    ObisData.NegativeActiveEnergyL2 M,
    ObisData.PositiveReactivePowerL2 M,
    ObisData.PositiveReactiveEnergyL2 M,
    ObisData.NegativeReactivePowerL2 M,
    ObisData.NegativeReactiveEnergyL2 M,
    ObisData.PositiveApparentPowerL2 M,
    ObisData.PositiveApparentEnergyL2 M,
    ObisData.NegativeApparentPowerL2 M,
    ObisData.NegativeApparentEnergyL2 M,
    ObisData.CurrentL2 M,
    ObisData.VoltageL2 M,
    ObisData.PowerFactorL2 M,
    -- line 3
    ObisData.PositiveActivePowerL3 M,
    ObisData.PositiveActiveEnergyL3 M,
    ObisData.NegativeActivePowerL3 M,
    ObisData.NegativeActiveEnergyL3 M,
    ObisData.PositiveReactivePowerL3 M,
    ObisData.PositiveReactiveEnergyL3 M,
    ObisData.NegativeReactivePowerL3 M,
    ObisData.NegativeReactiveEnergyL3 M,
    ObisData.PositiveApparentPowerL3 M,
    ObisData.PositiveApparentEnergyL3 M,
    ObisData.NegativeApparentPowerL3 M,
    ObisData.NegativeApparentEnergyL3 M,
    ObisData.CurrentL3 M,
    ObisData.VoltageL3 M,
    ObisData.PowerFactorL3 M,
    -- software version
    ObisData.SoftwareVersion M,
    ObisData.EndOfData M,
    -- calculated value, not part of an emeter packet
    ObisData.SignedActivePowerTotal M,
    ObisData.SignedActivePowerL1 M,
    ObisData.SignedActivePowerL2 M,
    ObisData.SignedActivePowerL3 M
  ]

/-- The identifiers (channel, index, kind, tariff) of the predefined records, in the order
of the catalog. -/
def predefinedIdentifiers : List (Nat × Nat × Nat × Nat) :=
    [(0, 1, 4, 0), (0, 1, 8, 0), (0, 2, 4, 0), (0, 2, 8, 0), (0, 3, 4, 0), (0, 3, 8, 0),
     (0, 4, 4, 0), (0, 4, 8, 0), (0, 9, 4, 0), (0, 9, 8, 0), (0, 10, 4, 0), (0, 10, 8, 0),
     (0, 13, 4, 0), (0, 21, 4, 0), (0, 21, 8, 0), (0, 22, 4, 0), (0, 22, 8, 0), (0, 23, 4, 0),
     (0, 23, 8, 0), (0, 24, 4, 0), (0, 24, 8, 0), (0, 29, 4, 0), (0, 29, 8, 0), (0, 30, 4, 0),
     (0, 30, 8, 0), (0, 31, 4, 0), (0, 32, 4, 0), (0, 33, 4, 0), (0, 41, 4, 0), (0, 41, 8, 0),
     (0, 42, 4, 0), (0, 42, 8, 0), (0, 43, 4, 0), (0, 43, 8, 0), (0, 44, 4, 0), (0, 44, 8, 0),
     (0, 49, 4, 0), (0, 49, 8, 0), (0, 50, 4, 0), (0, 50, 8, 0), (0, 51, 4, 0), (0, 52, 4, 0),
     (0, 53, 4, 0), (0, 61, 4, 0), (0, 61, 8, 0), (0, 62, 4, 0), (0, 62, 8, 0), (0, 63, 4, 0),
     (0, 63, 8, 0), (0, 64, 4, 0), (0, 64, 8, 0), (0, 69, 4, 0), (0, 69, 8, 0), (0, 70, 4, 0),
     (0, 70, 8, 0), (0, 71, 4, 0), (0, 72, 4, 0), (0, 73, 4, 0), (144, 0, 0, 0), (0, 0, 0, 0),
     (0, 16, 7, 0), (0, 36, 7, 0), (0, 56, 7, 0), (0, 76, 7, 0)]
/-! ## Socket factory: lemmas on the lookups -/

theorem scanSockets_eq_find (test : SocketEntry → Bool) (l : List SocketEntry) :
    scanSockets test l = l.find? test := by
  induction l with
  | nil => rfl
  | cons e rest ih =>
    by_cases h : test e = true
    · simp [scanSockets, List.find?_cons, h]
    · simp [scanSockets, List.find?_cons, h, ih]

theorem getSendSocket_eq_sendProcedure (F : Flags) (sockets : List SocketEntry) (type : Nat)
    (if_addr : String) :
    getSendSocket F sockets type if_addr = sendProcedure F containsAll sockets type if_addr := by
  unfold getSendSocket sendProcedure containsAll
  simp only [scanSockets_eq_find]
  by_cases h : if_addr = "0.0.0.0"
  · simp only [h, bne_self_eq_false, if_true, if_false, Bool.false_eq_true, Option.none_or]
    generalize List.find? _ sockets = a
    cases a <;> rfl
  · have h2 : (if_addr != "0.0.0.0") = true := by simpa using h
    simp only [h, h2, if_true, if_false]
    generalize List.find? _ sockets = a
    generalize List.find? _ sockets = b
    cases a <;> cases b <;> rfl

theorem getRecvSocket_eq_recvProcedure (F : Flags) (sockets : List SocketEntry) (type : Nat)
    (if_addr : String) :
    getRecvSocket F sockets type if_addr = recvProcedure F containsAll sockets type if_addr := by
  unfold getRecvSocket recvProcedure containsAll
  simp only [scanSockets_eq_find]
  by_cases h : if_addr = "0.0.0.0"
  · simp only [h, bne_self_eq_false, if_true, if_false, Bool.false_eq_true, Option.none_or]
    generalize List.find? _ sockets = a
    cases a <;> rfl
  · have h2 : (if_addr != "0.0.0.0") = true := by simpa using h
    simp only [h, h2, if_true, if_false]
    generalize List.find? _ sockets = a
    generalize List.find? _ sockets = b
    generalize List.find? _ sockets = c
    cases a <;> cases b <;> cases c <;> rfl

theorem getSendSocket_isSome (F : Flags) (sockets : List SocketEntry) (type : Nat)
    (if_addr : String) (h : sockets ≠ []) : (getSendSocket F sockets type if_addr).isSome := by
  cases sockets with
  | nil => exact absurd rfl h
  | cons e rest =>
    unfold getSendSocket
    split
    · rfl
    · split <;> rfl

theorem getRecvSocket_isSome (F : Flags) (sockets : List SocketEntry) (type : Nat)
    (if_addr : String) (h : sockets ≠ []) : (getRecvSocket F sockets type if_addr).isSome := by
  cases sockets with
  | nil => exact absurd rfl h
  | cons e rest =>
    unfold getRecvSocket
    split
    · rfl
    · split <;> rfl


/-! ## Socket factory: construction lemmas -/

theorem openSocketLoop_eq (F : Flags) (os : OpenOracle) (direction type : Nat)
    (ips : List String) (result : Bool) (st : FactoryState) :
    (openSocketLoop F os direction type ips result st).2
      = ⟨st.sockets ++ (ips.enumFrom st.opens).filterMap (openAttempt F os direction type),
          st.opens + ips.length⟩ := by
  induction ips generalizing result st with
  | nil => simp [openSocketLoop]
  | cons ip rest ih =>
    rw [openSocketLoop, ih]
    unfold openSocketForSingleInterface
    cases hos : os st.opens ip ((type &&& F.MULTICAST) != 0) with
    | none =>
      simp [List.enumFrom, List.filterMap_cons, openAttempt, hos, Nat.add_assoc, Nat.add_comm 1]
    | some s =>
      simp [List.enumFrom, List.filterMap_cons, openAttempt, hos, Nat.add_assoc, Nat.add_comm 1]

theorem openAttempt_mem (F : Flags) (os : OpenOracle) (direction type n : Nat)
    (ips : List String) (e : SocketEntry)
    (h : e ∈ (ips.enumFrom n).filterMap (openAttempt F os direction type)) :
    e.direction = direction ∧ e.type = type ∧ e.interface_address ∈ ips := by
  induction ips generalizing n with
  | nil => simp at h
  | cons ip rest ih =>
    simp only [List.enumFrom, List.filterMap_cons] at h
    cases hos : openAttempt F os direction type (n, ip) with
    | none =>
      rw [hos] at h
      obtain ⟨h1, h2, h3⟩ := ih (n + 1) h
      exact ⟨h1, h2, List.mem_cons_of_mem _ h3⟩
    | some x =>
      rw [hos] at h
      rcases List.mem_cons.mp h with h | h
      · unfold openAttempt at hos
        cases ho : os n ip ((type &&& F.MULTICAST) != 0) with
        | none => simp [ho] at hos
        | some s =>
          simp [ho] at hos
          subst h; subst hos
          exact ⟨rfl, rfl, List.mem_cons_self _ _⟩
      · obtain ⟨h1, h2, h3⟩ := ih (n + 1) h
        exact ⟨h1, h2, List.mem_cons_of_mem _ h3⟩

theorem openAttempt_all_succeed (F : Flags) (os : OpenOracle) (direction type n : Nat)
    (ips : List String) (hos : ∀ k a m, (os k a m).isSome) :
    ((ips.enumFrom n).filterMap (openAttempt F os direction type)).map
      (fun e => e.interface_address) = ips := by
  induction ips generalizing n with
  | nil => rfl
  | cons ip rest ih =>
    obtain ⟨s, hs⟩ := Option.isSome_iff_exists.mp (hos n ip ((type &&& F.MULTICAST) != 0))
    simp [List.enumFrom, List.filterMap_cons, openAttempt, hs, ih]
/-- C1 (as stated, refuted): on the registry of the default mixed strategy a MULTICAST send
lookup for `10.0.0.1` returns the shared wildcard entry, whose bitmask MULTICAST|UNICAST is
not equal to MULTICAST, while the procedure with exact equality falls back to the first
entry. -/
theorem C1_exact_equality_refuted :
    getSendSocket bitFlags mixedRegistry bitFlags.MULTICAST "10.0.0.1"
        = some ⟨⟨4⟩, 3, 3, "0.0.0.0"⟩
      ∧ sendProcedure bitFlags exactlyEqual mixedRegistry bitFlags.MULTICAST "10.0.0.1"
        = some ⟨⟨3⟩, 3, 2, "10.0.0.1"⟩
      ∧ getSendSocket bitFlags mixedRegistry bitFlags.MULTICAST "10.0.0.1"
        ≠ sendProcedure bitFlags exactlyEqual mixedRegistry bitFlags.MULTICAST "10.0.0.1" := by
  decide

/-- C1 (amended): for every non-empty registry, cast type and interface address,
getSendSocket returns the entry chosen by the three-step procedure in which the cast-type
test is that the entry's bitmask contains every requested bit. -/
theorem C1_getSendSocket_procedure (F : Flags) (sockets : List SocketEntry) (type : Nat)
    (if_addr : String) (h : sockets ≠ []) :
    ∃ e, getSendSocket F sockets type if_addr = some e
      ∧ sendProcedure F containsAll sockets type if_addr = some e := by
  have hs := getSendSocket_isSome F sockets type if_addr h
  obtain ⟨e, he⟩ := Option.isSome_iff_exists.mp hs
  exact ⟨e, he, by rw [← getSendSocket_eq_sendProcedure, he]⟩

/-- C1 witness: a UNICAST send lookup for 10.0.0.1 on the registry of the default mixed
strategy. -/
theorem C1_getSendSocket_procedure_witness :
    ∃ e, getSendSocket bitFlags mixedRegistry bitFlags.UNICAST "10.0.0.1" = some e
      ∧ sendProcedure bitFlags containsAll mixedRegistry bitFlags.UNICAST "10.0.0.1" = some e :=
  C1_getSendSocket_procedure bitFlags mixedRegistry bitFlags.UNICAST "10.0.0.1" (by decide)

/-- C2 (as stated, refuted): on the registry of the default mixed strategy a MULTICAST
receive lookup for the wildcard address returns the shared wildcard entry, whose bitmask
is not equal to MULTICAST, while the procedure with exact equality in tiers 1 and 3 falls
back to the first entry. -/
theorem C2_exact_equality_refuted :
    getRecvSocket bitFlags mixedRegistry bitFlags.MULTICAST "0.0.0.0"
        = some ⟨⟨4⟩, 3, 3, "0.0.0.0"⟩
      ∧ recvProcedure bitFlags exactlyEqual mixedRegistry bitFlags.MULTICAST "0.0.0.0"
        = some ⟨⟨3⟩, 3, 2, "10.0.0.1"⟩
      ∧ getRecvSocket bitFlags mixedRegistry bitFlags.MULTICAST "0.0.0.0"
        ≠ recvProcedure bitFlags exactlyEqual mixedRegistry bitFlags.MULTICAST "0.0.0.0" := by
  decide

/-- C2 (amended): for every non-empty registry, cast type and interface address,
getRecvSocket returns the entry chosen by the three-tier procedure in which tiers 1 and 3
test that the entry's bitmask contains every requested bit and tier 2 that it overlaps
the request. -/
theorem C2_getRecvSocket_procedure (F : Flags) (sockets : List SocketEntry) (type : Nat)
    (if_addr : String) (h : sockets ≠ []) :
    ∃ e, getRecvSocket F sockets type if_addr = some e
      ∧ recvProcedure F containsAll sockets type if_addr = some e := by
  have hs := getRecvSocket_isSome F sockets type if_addr h
  obtain ⟨e, he⟩ := Option.isSome_iff_exists.mp hs
  exact ⟨e, he, by rw [← getRecvSocket_eq_recvProcedure, he]⟩

/-- C2 witness: a MULTICAST receive lookup for 10.0.0.1 on the registry of the default
mixed strategy. -/
theorem C2_getRecvSocket_procedure_witness :
    ∃ e, getRecvSocket bitFlags mixedRegistry bitFlags.MULTICAST "10.0.0.1" = some e
      ∧ recvProcedure bitFlags containsAll mixedRegistry bitFlags.MULTICAST "10.0.0.1"
        = some e :=
  C2_getRecvSocket_procedure bitFlags mixedRegistry bitFlags.MULTICAST "10.0.0.1" (by decide)

/-! ## Socket factory: batch lookup -/

theorem appendRecvSockets_nodup (F : Flags) (sockets : List SocketEntry) (t : Nat)
    (addrs : List String) (acc r : List SpeedwireSocket)
    (hacc : (acc.map SpeedwireSocket.getSocketFd).Nodup)
    (hr : appendRecvSockets F sockets t addrs acc = some r) :
    (r.map SpeedwireSocket.getSocketFd).Nodup := by
  induction addrs generalizing acc with
  | nil =>
    simp only [appendRecvSockets, Option.some.injEq] at hr
    exact hr ▸ hacc
  | cons addr rest ih =>
    unfold appendRecvSockets at hr
    cases hg : getRecvSocket F sockets t addr with
    | none => simp [hg] at hr
    | some entry =>
      simp only [hg] at hr
      refine ih _ ?_ hr
      by_cases hd : acc.any (fun recv_socket =>
          entry.socket.getSocketFd == recv_socket.getSocketFd) = true
      · simpa [hd] using hacc
      · simp only [hd, beq_self_eq_true, Bool.not_eq_true, if_true]
        rw [List.map_append, List.nodup_append]
        refine ⟨hacc, by simp, ?_⟩
        intro a ha hb
        simp only [List.map_cons, List.map_nil, List.mem_singleton] at hb
        apply hd
        rw [List.any_eq_true]
        obtain ⟨x, hx, hxa⟩ := List.mem_map.mp ha
        exact ⟨x, hx, by simp [hxa, hb]⟩

theorem appendRecvSockets_isSome (F : Flags) (sockets : List SocketEntry) (t : Nat)
    (addrs : List String) (acc : List SpeedwireSocket) (h : sockets ≠ []) :
    ∃ r, appendRecvSockets F sockets t addrs acc = some r := by
  induction addrs generalizing acc with
  | nil => exact ⟨acc, rfl⟩
  | cons addr rest ih =>
    unfold appendRecvSockets
    obtain ⟨e, he⟩ := Option.isSome_iff_exists.mp (getRecvSocket_isSome F sockets t addr h)
    simp only [he]
    exact ih _

/-- One guarded loop of `getRecvSockets`, as the function unfolds it. -/
theorem recvStep_nodup (F : Flags) (sockets : List SocketEntry) (type t : Nat)
    (addrs : List String) (h : sockets ≠ []) (acc : List SpeedwireSocket)
    (hacc : (acc.map SpeedwireSocket.getSocketFd).Nodup) :
    ∃ r, (if (type &&& t) != 0 then appendRecvSockets F sockets t addrs acc else some acc)
        = some r ∧ (r.map SpeedwireSocket.getSocketFd).Nodup := by
  by_cases hb : ((type &&& t) != 0) = true
  · obtain ⟨r, hr⟩ := appendRecvSockets_isSome F sockets t addrs acc h
    exact ⟨r, by simp only [hb, if_true, hr], appendRecvSockets_nodup F sockets t addrs acc r hacc hr⟩
  · exact ⟨acc, by simp only [hb, if_false, Bool.false_eq_true], hacc⟩

/-- C3: for every non-empty registry, strategy, requested cast type and list of interface
addresses (repeated addresses included), getRecvSockets returns a list in which no two
elements have the same file descriptor. -/
theorem C3_getRecvSockets_nodup (F : Flags) (strategy : Strategy) (sockets : List SocketEntry)
    (type : Nat) (if_addresses : List String) (h : sockets ≠ []) :
    ∃ r, getRecvSockets F strategy sockets type if_addresses = some r
      ∧ (r.map SpeedwireSocket.getSocketFd).Nodup := by
  unfold getRecvSockets
  split
  · obtain ⟨e, he⟩ :=
      Option.isSome_iff_exists.mp (getRecvSocket_isSome F sockets F.MULTICAST "0.0.0.0" h)
    exact ⟨[e.socket], by simp only [he], by simp⟩
  · obtain ⟨r1, h1, n1⟩ := recvStep_nodup F sockets type F.UNICAST if_addresses h [] (by simp)
    obtain ⟨r2, h2, n2⟩ := recvStep_nodup F sockets type F.MULTICAST if_addresses h r1 n1
    obtain ⟨r3, h3, n3⟩ := recvStep_nodup F sockets type F.ANYCAST if_addresses h r2 n2
    exact ⟨r3, by simp only [h1, h2, h3], n3⟩

/-- C3 witness: a request for both cast types over a list with a repeated address. -/
theorem C3_getRecvSockets_nodup_witness :
    ∃ r, getRecvSockets bitFlags
          .ONE_MULTICAST_SOCKET_AND_ONE_UNICAST_SOCKET_FOR_EACH_INTERFACE mixedRegistry
          (bitFlags.MULTICAST ||| bitFlags.UNICAST) ["10.0.0.1", "10.0.0.1", "10.0.0.9"]
        = some r
      ∧ (r.map SpeedwireSocket.getSocketFd).Nodup :=
  C3_getRecvSockets_nodup bitFlags
    .ONE_MULTICAST_SOCKET_AND_ONE_UNICAST_SOCKET_FOR_EACH_INTERFACE mixedRegistry
    (bitFlags.MULTICAST ||| bitFlags.UNICAST) ["10.0.0.1", "10.0.0.1", "10.0.0.9"] (by decide)

/-! ## Socket factory: registries built by the constructor -/

theorem or_and_right_self (a b : Nat) : (a ||| b) &&& b = b := by
  apply Nat.eq_of_testBit_eq
  intro i
  simp only [Nat.testBit_and, Nat.testBit_or]
  cases a.testBit i <;> cases b.testBit i <;> rfl

theorem or_and_left_self (a b : Nat) : (a ||| b) &&& a = a := by
  apply Nat.eq_of_testBit_eq
  intro i
  simp only [Nat.testBit_and, Nat.testBit_or]
  cases a.testBit i <;> cases b.testBit i <;> rfl

theorem construct_unicast_sockets (F : Flags) (os : OpenOracle) (localIPs : List String) :
    (construct F os localIPs .ONE_UNICAST_SOCKET_FOR_EACH_INTERFACE).sockets
      = (localIPs.enumFrom 0).filterMap (openAttempt F os (F.SEND ||| F.RECV) F.UNICAST) := by
  simp [construct, openSocketForEachInterface, openSocketLoop_eq]

theorem construct_mixed_sockets (F : Flags) (os : OpenOracle) (localIPs : List String) :
    (construct F os localIPs
        .ONE_MULTICAST_SOCKET_AND_ONE_UNICAST_SOCKET_FOR_EACH_INTERFACE).sockets
      = (localIPs.enumFrom 0).filterMap (openAttempt F os (F.SEND ||| F.RECV) F.UNICAST)
        ++ (openAttempt F os (F.SEND ||| F.RECV) (F.MULTICAST ||| F.UNICAST)
              (localIPs.length, "0.0.0.0")).toList := by
  simp only [construct, openSocketForEachInterface, openSocketLoop_eq,
    openSocketForSingleInterface, openAttempt, List.nil_append, Nat.zero_add]
  cases os localIPs.length "0.0.0.0" (((F.MULTICAST ||| F.UNICAST) &&& F.MULTICAST) != 0) <;> simp

/-- C4: under the default mixed strategy with a non-empty registry, getRecvSockets for
MULTICAST returns a list of exactly one element whatever the address list; and when the
registry is the one the constructor built and the open of the shared wildcard socket
succeeded, that element is the socket of the shared entry bound to 0.0.0.0. -/
theorem C4_mixed_multicast_single (F : Flags) (sockets : List SocketEntry)
    (if_addresses : List String) (h : sockets ≠ []) :
    (∃ s, getRecvSockets F .ONE_MULTICAST_SOCKET_AND_ONE_UNICAST_SOCKET_FOR_EACH_INTERFACE
        sockets F.MULTICAST if_addresses = some [s])
    ∧ (∀ (os : OpenOracle) (localIPs : List String) (w : SpeedwireSocket),
        F.RECV ≠ 0 →
        (F.UNICAST &&& F.MULTICAST ≠ F.MULTICAST ∨ "0.0.0.0" ∉ localIPs) →
        sockets = (construct F os localIPs
          .ONE_MULTICAST_SOCKET_AND_ONE_UNICAST_SOCKET_FOR_EACH_INTERFACE).sockets →
        os localIPs.length "0.0.0.0" (((F.MULTICAST ||| F.UNICAST) &&& F.MULTICAST) != 0)
          = some w →
        getRecvSocket F sockets F.MULTICAST "0.0.0.0"
            = some ⟨w, F.SEND ||| F.RECV, F.MULTICAST ||| F.UNICAST, "0.0.0.0"⟩
          ∧ getRecvSockets F .ONE_MULTICAST_SOCKET_AND_ONE_UNICAST_SOCKET_FOR_EACH_INTERFACE
              sockets F.MULTICAST if_addresses = some [w]) := by
  have hcond : ((F.MULTICAST &&& F.MULTICAST) == F.MULTICAST
      && Strategy.ONE_MULTICAST_SOCKET_AND_ONE_UNICAST_SOCKET_FOR_EACH_INTERFACE
        == Strategy.ONE_MULTICAST_SOCKET_AND_ONE_UNICAST_SOCKET_FOR_EACH_INTERFACE) = true := by
    simp [Nat.and_self]
  constructor
  · obtain ⟨e, he⟩ :=
      Option.isSome_iff_exists.mp (getRecvSocket_isSome F sockets F.MULTICAST "0.0.0.0" h)
    exact ⟨e.socket, by simp only [getRecvSockets, hcond, if_true, he]⟩
  · intro os localIPs w hR hU hs hw
    have hget : getRecvSocket F sockets F.MULTICAST "0.0.0.0"
        = some ⟨w, F.SEND ||| F.RECV, F.MULTICAST ||| F.UNICAST, "0.0.0.0"⟩ := by
      rw [getRecvSocket_eq_recvProcedure, hs, construct_mixed_sockets]
      have hpre : List.find? (fun e : SocketEntry =>
            (e.direction &&& F.RECV != 0 && containsAll e.type F.MULTICAST)
              && e.interface_address == "0.0.0.0")
          ((localIPs.enumFrom 0).filterMap (openAttempt F os (F.SEND ||| F.RECV) F.UNICAST))
            = none := by
        rw [List.find?_eq_none]
        intro e he
        obtain ⟨_, h2, h3⟩ := openAttempt_mem F os _ _ 0 localIPs e he
        rcases hU with hU | hU
        · simp [containsAll, h2, hU]
        · have : e.interface_address ≠ "0.0.0.0" := fun hc => hU (hc ▸ h3)
          simp [this]
      simp only [recvProcedure, if_true, Option.none_or, List.find?_append, hpre, openAttempt,
        hw, Option.map_some', Option.toList_some]
      simp [containsAll, or_and_right_self, or_and_left_self, hR]
    exact ⟨hget, by simp only [getRecvSockets, hcond, if_true, hget]⟩

/-- C4 witness: three addresses, one of them repeated, on the registry the constructor
builds over 10.0.0.1; the single element is the shared socket. -/
theorem C4_mixed_multicast_single_witness :
    (∃ s, getRecvSockets bitFlags .ONE_MULTICAST_SOCKET_AND_ONE_UNICAST_SOCKET_FOR_EACH_INTERFACE
        mixedRegistry bitFlags.MULTICAST ["10.0.0.1", "10.0.0.7", "10.0.0.1"] = some [s])
    ∧ getRecvSockets bitFlags .ONE_MULTICAST_SOCKET_AND_ONE_UNICAST_SOCKET_FOR_EACH_INTERFACE
        mixedRegistry bitFlags.MULTICAST ["10.0.0.1", "10.0.0.7", "10.0.0.1"] = some [⟨4⟩] :=
  have key := C4_mixed_multicast_single bitFlags mixedRegistry
    ["10.0.0.1", "10.0.0.7", "10.0.0.1"] (by decide)
  ⟨key.1, (key.2 (fun n _ _ => some ⟨n + 3⟩) ["10.0.0.1"] ⟨4⟩ (by decide)
    (Or.inl (by decide)) rfl rfl).2⟩

/-- C5: constructing with ONE_UNICAST_SOCKET_FOR_EACH_INTERFACE over local addresses none
of which is 0.0.0.0, every open succeeding, gives a registry whose bound addresses are
exactly the local addresses in their order (so one entry per address), every entry of
cast type exactly UNICAST and none bound to the wildcard address. -/
theorem C5_unicast_per_interface (F : Flags) (os : OpenOracle) (localIPs : List String)
    (hL : "0.0.0.0" ∉ localIPs) (hos : ∀ n a m, (os n a m).isSome) :
    ((construct F os localIPs .ONE_UNICAST_SOCKET_FOR_EACH_INTERFACE).sockets.map
        (fun e => e.interface_address) = localIPs)
    ∧ (construct F os localIPs .ONE_UNICAST_SOCKET_FOR_EACH_INTERFACE).sockets.length
        = localIPs.length
    ∧ (∀ e ∈ (construct F os localIPs .ONE_UNICAST_SOCKET_FOR_EACH_INTERFACE).sockets,
        e.type = F.UNICAST ∧ e.interface_address ≠ "0.0.0.0") := by
  rw [construct_unicast_sockets]
  have hmap := openAttempt_all_succeed F os (F.SEND ||| F.RECV) F.UNICAST 0 localIPs hos
  refine ⟨hmap, ?_, ?_⟩
  · have := congrArg List.length hmap
    simpa using this
  · intro e he
    obtain ⟨_, h2, h3⟩ := openAttempt_mem F os _ _ 0 localIPs e he
    exact ⟨h2, fun hc => hL (hc ▸ h3)⟩

/-- C5 witness: the local addresses 10.0.0.1 and 10.0.0.2 give exactly two entries. -/
theorem C5_unicast_per_interface_witness :
    ((construct bitFlags (fun n _ _ => some ⟨n + 3⟩) ["10.0.0.1", "10.0.0.2"]
        .ONE_UNICAST_SOCKET_FOR_EACH_INTERFACE).sockets.map
        (fun e => e.interface_address) = ["10.0.0.1", "10.0.0.2"])
    ∧ (construct bitFlags (fun n _ _ => some ⟨n + 3⟩) ["10.0.0.1", "10.0.0.2"]
        .ONE_UNICAST_SOCKET_FOR_EACH_INTERFACE).sockets.length = 2
    ∧ (∀ e ∈ (construct bitFlags (fun n _ _ => some ⟨n + 3⟩) ["10.0.0.1", "10.0.0.2"]
        .ONE_UNICAST_SOCKET_FOR_EACH_INTERFACE).sockets,
        e.type = bitFlags.UNICAST ∧ e.interface_address ≠ "0.0.0.0") :=
  C5_unicast_per_interface bitFlags (fun n _ _ => some ⟨n + 3⟩) ["10.0.0.1", "10.0.0.2"]
    (by decide) (fun _ _ _ => rfl)

/-! ## Decimal digits -/

theorem digitChar_isDigit (k : Nat) (h : k < 10) :
    (Nat.digitChar k).isDigit = true ∧ (Nat.digitChar k).toNat - 48 = k := by
  interval_cases k <;> exact ⟨rfl, rfl⟩

theorem toDigitsCore_eq (fuel : Nat) :
    ∀ (n : Nat) (ds : List Char), n < fuel →
      Nat.toDigitsCore 10 fuel n ds = Nat.toDigits 10 n ++ ds := by
  induction fuel using Nat.strong_induction_on with
  | _ fuel ih =>
    intro n ds hn
    cases fuel with
    | zero => omega
    | succ f =>
      unfold Nat.toDigits
      simp only [Nat.toDigitsCore]
      by_cases h0 : n / 10 = 0
      · simp [h0]
      · have hlt : n / 10 < n := Nat.div_lt_self (by omega) (by omega)
        simp only [h0, if_false]
        rw [ih f (by omega) (n / 10) _ (by omega), ih n (by omega) (n / 10) _ hlt]
        simp

theorem toDigits_small (n : Nat) (h : n < 10) : Nat.toDigits 10 n = [Nat.digitChar n] := by
  unfold Nat.toDigits
  simp only [Nat.toDigitsCore]
  have h0 : n / 10 = 0 := by omega
  have h1 : n % 10 = n := by omega
  simp [h0, h1]

theorem toDigits_large (n : Nat) (h : 10 ≤ n) :
    Nat.toDigits 10 n = Nat.toDigits 10 (n / 10) ++ [Nat.digitChar (n % 10)] := by
  have h0 : n / 10 ≠ 0 := by omega
  have hlt : n / 10 < n := Nat.div_lt_self (by omega) (by omega)
  conv_lhs => unfold Nat.toDigits
  simp only [Nat.toDigitsCore, h0, if_false]
  exact toDigitsCore_eq n (n / 10) _ hlt

theorem toDigits_all_digits (n : Nat) : ∀ c ∈ Nat.toDigits 10 n, c.isDigit = true := by
  induction n using Nat.strong_induction_on with
  | _ n ih =>
    by_cases h : n < 10
    · rw [toDigits_small n h]
      intro c hc
      rw [List.mem_singleton] at hc
      exact hc ▸ (digitChar_isDigit n h).1
    · rw [toDigits_large n (by omega)]
      intro c hc
      rcases List.mem_append.mp hc with hc | hc
      · exact ih (n / 10) (Nat.div_lt_self (by omega) (by omega)) c hc
      · rw [List.mem_singleton] at hc
        exact hc ▸ (digitChar_isDigit (n % 10) (Nat.mod_lt _ (by omega))).1

theorem toDigits_ne_nil (n : Nat) : Nat.toDigits 10 n ≠ [] := by
  by_cases h : n < 10
  · rw [toDigits_small n h]; simp
  · rw [toDigits_large n (by omega)]; simp

theorem toDigits_length_small (n : Nat) (h : n < 10) : (Nat.toDigits 10 n).length = 1 := by
  rw [toDigits_small n h]; rfl

theorem toDigits_length_le (n : Nat) (h : n < 256) :
    (Nat.toDigits 10 n).length ≤ 3 ∧ (10 ≤ n → 2 ≤ (Nat.toDigits 10 n).length) := by
  by_cases h1 : n < 10
  · rw [toDigits_length_small n h1]; omega
  · rw [toDigits_large n (by omega)]
    by_cases h2 : n / 10 < 10
    · rw [toDigits_small _ h2]; simp
    · rw [toDigits_large (n / 10) (by omega), toDigits_small (n / 10 / 10) (by omega)]; simp

/-! ## The decimal conversion on a printed number -/

theorem digit_not_space (c : Char) (h : c.isDigit = true) :
    isSpace c = false ∧ (c == '-') = false ∧ (c == '+') = false
      ∧ digitValue 10 c = some (c.toNat - 48) ∧ c.toNat ≠ 0 := by
  have hd : 48 ≤ c.val ∧ c.val ≤ 57 := by simpa [Char.isDigit] using h
  have h1 : 48 ≤ c.toNat ∧ c.toNat ≤ 57 := by
    obtain ⟨a, b⟩ := hd
    exact ⟨by simpa [Char.toNat] using a, by simpa [Char.toNat] using b⟩
  refine ⟨?_, ?_, ?_, ?_, by omega⟩
  · have h2 : c ≠ ' ' := by
      intro hc; subst hc; revert h; decide
    simp only [isSpace, Bool.or_eq_false_iff, beq_eq_false_iff_ne, ne_eq, h2, not_false_eq_true,
      Bool.and_eq_false_iff, decide_eq_false_iff_not, true_and]
    omega
  · rw [beq_eq_false_iff_ne]; intro hc; subst hc; revert h; decide
  · rw [beq_eq_false_iff_ne]; intro hc; subst hc; revert h; decide
  · simp [digitValue, h]

theorem scanDigits_append (ds rest : List Char) (acc count : Nat)
    (hds : ∀ c ∈ ds, c.isDigit = true)
    (hrest : ∀ c ∈ rest.head?, digitValue 10 c = none) :
    scanDigits 10 none acc count (ds ++ rest)
      = (ds.foldl (fun a c => a * 10 + (c.toNat - 48)) acc, count + ds.length, rest) := by
  induction ds generalizing acc count with
  | nil =>
    cases rest with
    | nil => simp [scanDigits]
    | cons c cs =>
      have := hrest c (by simp)
      simp [scanDigits, this]
  | cons d ds ih =>
    have hd := (digit_not_space d (hds d (List.mem_cons_self _ _))).2.2.2.1
    simp only [List.cons_append, scanDigits, hd, Option.map_none', List.foldl_cons,
      List.length_cons]
    rw [if_neg (by simp)]
    show scanDigits 10 none _ _ (ds ++ rest) = _
    rw [ih _ _ (fun c hc => hds c (List.mem_cons_of_mem _ hc))]
    simp [Nat.add_assoc, Nat.add_comm 1]

theorem toDigits_value (n : Nat) :
    (Nat.toDigits 10 n).foldl (fun a c => a * 10 + (c.toNat - 48)) 0 = n := by
  induction n using Nat.strong_induction_on with
  | _ n ih =>
    by_cases h : n < 10
    · rw [toDigits_small n h]
      simp [(digitChar_isDigit n h).2]
    · rw [toDigits_large n (by omega), List.foldl_append,
        ih (n / 10) (Nat.div_lt_self (by omega) (by omega))]
      simp only [List.foldl_cons, List.foldl_nil,
        (digitChar_isDigit (n % 10) (Nat.mod_lt _ (by omega))).2]
      omega

/-- On a printed number followed by input that does not go on with a digit, the conversion
`%u` stores the number and stops right behind it. -/
theorem scanInteger_toDigits (n : Nat) (rest : List Char)
    (hrest : ∀ c ∈ rest.head?, digitValue 10 c = none) :
    scanInteger 10 none (Nat.toDigits 10 n ++ rest) = some (n % 2 ^ 32, rest) := by
  have hall := toDigits_all_digits n
  have hval := toDigits_value n
  have hscan := scanDigits_append (Nat.toDigits 10 n) rest 0 0 hall hrest
  cases hds : Nat.toDigits 10 n with
  | nil => exact absurd hds (toDigits_ne_nil n)
  | cons c cs =>
    rw [hds] at hall hval hscan
    obtain ⟨h1, h2, h3, _, _⟩ := digit_not_space c (hall c (List.mem_cons_self _ _))
    have hskip : skipSpace (c :: cs ++ rest) = c :: cs ++ rest := by
      simp [skipSpace, h1]
    have hsign : scanSign none (c :: cs ++ rest) = (false, none, c :: cs ++ rest) := by
      simp [scanSign, h2, h3]
    have hpre : scanHexLead 10 none (c :: cs ++ rest) = (none, c :: cs ++ rest) := by
      cases hcs : cs ++ rest with
      | nil => simp [scanHexLead, hcs]
      | cons x xs => simp [scanHexLead, hcs]
    unfold scanInteger
    rw [hskip, hsign]
    simp only [hpre, hscan, hval]
    simp

/-! ## Obis data: the firmware version -/

theorem scanFields_printed (A B C D : Nat) :
    scanFields (scanInteger 10 none) 4
        (Nat.toDigits 10 A ++ '.' :: (Nat.toDigits 10 B ++ '.' :: (Nat.toDigits 10 C
          ++ '.' :: Nat.toDigits 10 D)))
      = [A % 2 ^ 32, B % 2 ^ 32, C % 2 ^ 32, D % 2 ^ 32] := by
  have hdot : ∀ (l : List Char), ∀ c ∈ ('.' :: l).head?, digitValue 10 c = none := by
    intro l c hc
    simp only [List.head?_cons, Option.mem_def, Option.some.injEq] at hc
    subst hc
    decide
  have hD : scanInteger 10 none (Nat.toDigits 10 D) = some (D % 2 ^ 32, []) := by
    have := scanInteger_toDigits D [] (by simp)
    simpa using this
  simp only [scanFields, scanInteger_toDigits _ _ (hdot _), hD]
  simp

theorem printed_data (A B C D : Nat) :
    (Nat.repr A ++ "." ++ Nat.repr B ++ "." ++ Nat.repr C ++ "." ++ Nat.repr D).data
      = Nat.toDigits 10 A ++ '.' :: (Nat.toDigits 10 B ++ '.' :: (Nat.toDigits 10 C
          ++ '.' :: Nat.toDigits 10 D)) := by
  simp [Nat.repr, String.data_append, List.asString]

theorem c_str_printed (A B C D : Nat) :
    c_str (Nat.repr A ++ "." ++ Nat.repr B ++ "." ++ Nat.repr C ++ "." ++ Nat.repr D)
      = Nat.toDigits 10 A ++ '.' :: (Nat.toDigits 10 B ++ '.' :: (Nat.toDigits 10 C
          ++ '.' :: Nat.toDigits 10 D)) := by
  unfold c_str
  rw [printed_data, List.takeWhile_eq_self_iff]
  intro c hc
  have hdig : ∀ n, ∀ x ∈ Nat.toDigits 10 n, (x.toNat != 0) = true := by
    intro n x hx
    have := (digit_not_space x (toDigits_all_digits n x hx)).2.2.2.2
    simpa using this
  simp only [List.mem_append, List.mem_cons] at hc
  rcases hc with h | h | h | h | h | h | h
  · exact hdig A c h
  · subst h; decide
  · exact hdig B c h
  · subst h; decide
  · exact hdig C c h
  · subst h; decide
  · exact hdig D c h

theorem pack_bytes (A B C D : Nat) (hA : A < 256) (hB : B < 256) (hC : C < 256)
    (hD : D < 256) :
    (A <<< 24) % 2 ^ 32 ||| (B <<< 16) % 2 ^ 32 ||| (C <<< 8) % 2 ^ 32 ||| D
      = A * 2 ^ 24 + B * 2 ^ 16 + C * 2 ^ 8 + D := by
  have e1 : (A <<< 24) % 2 ^ 32 = 2 ^ 24 * A := by
    rw [Nat.shiftLeft_eq]; omega
  have e2 : (B <<< 16) % 2 ^ 32 = 2 ^ 16 * B := by
    rw [Nat.shiftLeft_eq]; omega
  have e3 : (C <<< 8) % 2 ^ 32 = 2 ^ 8 * C := by
    rw [Nat.shiftLeft_eq]; omega
  have s1 : 2 ^ 24 * A ||| 2 ^ 16 * B = 2 ^ 16 * (2 ^ 8 * A + B) := by
    rw [← Nat.mul_add_lt_is_or (by omega)]; omega
  have s2 : 2 ^ 16 * (2 ^ 8 * A + B) ||| 2 ^ 8 * C = 2 ^ 8 * (2 ^ 16 * A + 2 ^ 8 * B + C) := by
    rw [← Nat.mul_add_lt_is_or (by omega)]; omega
  rw [e1, e2, e3, s1, s2, ← Nat.mul_add_lt_is_or (by omega)]
  omega

/-- C6 (as stated, refuted): for the firmware-version record with the text 1.2.3.4 the
code writes the value bytes 01 02 03 04, not the bytes 04 03 02 01 of the integer
(4<<24)|(3<<16)|(2<<8)|1 the claim names. -/
theorem C6_low_byte_first_refuted :
    (firmwareRecord "1.2.3.4").toByteArray exactMul
        = some [144, 0, 0, 0, 0x01, 0x02, 0x03, 0x04, 0xff, 0xff, 0xff, 0xff]
      ∧ (firmwareRecord "1.2.3.4").toByteArray exactMul
        ≠ some (setObisValue4 (firmwareRecord "1.2.3.4").toObisType.toByteArray
            (4 <<< 24 ||| 3 <<< 16 ||| 2 <<< 8 ||| 1))
      ∧ setObisValue4 (firmwareRecord "1.2.3.4").toObisType.toByteArray
            (4 <<< 24 ||| 3 <<< 16 ||| 2 <<< 8 ||| 1)
        = [144, 0, 0, 0, 0x04, 0x03, 0x02, 0x01, 0xff, 0xff, 0xff, 0xff] := by
  decide

/-- C6 (amended): for the firmware-version record (channel 144, kind 0) whose text is
A.B.C.D with four decimal fields in 0..255, toByteArray writes the integer
(A<<24)|(B<<16)|(C<<8)|D big-endian into the value field: the value bytes are A, B, C, D,
the first parsed field in the high byte and the last in the low byte. -/
theorem C6_firmware_version_bytes (fmul : ℚ → ℚ → ℚ) (d : ObisData) (A B C D : Nat)
    (hch : d.channel = 144) (hk : d.type = 0)
    (hA : A < 256) (hB : B < 256) (hC : C < 256) (hD : D < 256)
    (htext : d.measurementValue.value_string
      = Nat.repr A ++ "." ++ Nat.repr B ++ "." ++ Nat.repr C ++ "." ++ Nat.repr D) :
    d.toByteArray fmul
        = some (setObisValue4 d.toObisType.toByteArray
            (A <<< 24 ||| B <<< 16 ||| C <<< 8 ||| D))
      ∧ d.toByteArray fmul
        = some [144, d.index, 0, d.tariff, A, B, C, D, 0xff, 0xff, 0xff, 0xff] := by
  have hbytes : d.toByteArray fmul
      = some (setObisValue4 d.toObisType.toByteArray
          (A * 2 ^ 24 + B * 2 ^ 16 + C * 2 ^ 8 + D)) := by
    unfold ObisData.toByteArray
    simp only [hk, hch, beq_self_eq_true, if_true, htext, c_str_printed, sscanf4,
      scanFields_printed]
    have hm : ∀ x, x < 256 → x % 2 ^ 32 = x := fun x hx => Nat.mod_eq_of_lt (by omega)
    have hp := pack_bytes A B C D hA hB hC hD
    simp only [Nat.reducePow] at hp hm
    simp [hm A hA, hm B hB, hm C hC, hm D hD, hp]
  have hpack : A <<< 24 ||| B <<< 16 ||| C <<< 8 ||| D
      = A * 2 ^ 24 + B * 2 ^ 16 + C * 2 ^ 8 + D := by
    rw [← pack_bytes A B C D hA hB hC hD]
    have e1 : (A <<< 24) % 2 ^ 32 = A <<< 24 := by rw [Nat.shiftLeft_eq]; omega
    have e2 : (B <<< 16) % 2 ^ 32 = B <<< 16 := by rw [Nat.shiftLeft_eq]; omega
    have e3 : (C <<< 8) % 2 ^ 32 = C <<< 8 := by rw [Nat.shiftLeft_eq]; omega
    rw [e1, e2, e3]
  refine ⟨by rw [hbytes, hpack], ?_⟩
  rw [hbytes]
  simp only [setObisValue4, ObisType.toByteArray, hch, hk, List.take, List.drop,
    List.cons_append, List.nil_append, Option.some.injEq, List.cons.injEq, and_true, true_and]
  omega

/-- C6 witness: the text 10.0.255.7. -/
theorem C6_firmware_version_bytes_witness :
    (firmwareRecord "10.0.255.7").toByteArray exactMul
        = some (setObisValue4 (firmwareRecord "10.0.255.7").toObisType.toByteArray
            (10 <<< 24 ||| 0 <<< 16 ||| 255 <<< 8 ||| 7))
      ∧ (firmwareRecord "10.0.255.7").toByteArray exactMul
        = some [144, 0, 0, 0, 10, 0, 255, 7, 0xff, 0xff, 0xff, 0xff] :=
  C6_firmware_version_bytes exactMul (firmwareRecord "10.0.255.7") 10 0 255 7 rfl rfl
    (by decide) (by decide) (by decide) (by decide) (by decide)

/-! ## Obis data: the integer width classes -/

theorem castUnsigned_floor (bits : Nat) (x : ℚ) (h0 : 0 ≤ x) (h1 : x < 2 ^ bits) :
    castUnsigned bits x = some ⌊x⌋.toNat ∧ ⌊x⌋.toNat < 2 ^ bits ∧ (⌊x⌋.toNat : Int) = ⌊x⌋ := by
  have hfl : ⌊x⌋ = x.num / (x.den : Int) := by
    rw [← Rat.floor_def']; rfl
  have htd : x.num.tdiv x.den = ⌊x⌋ := by
    rw [hfl]
    exact Int.tdiv_eq_ediv (Rat.num_nonneg.mpr h0) (Int.ofNat_nonneg _)
  have hnn : 0 ≤ ⌊x⌋ := Int.floor_nonneg.mpr h0
  have hlt : ⌊x⌋ < 2 ^ bits := by
    have : (⌊x⌋ : ℚ) < ((2 ^ bits : Int) : ℚ) := by
      push_cast
      exact lt_of_le_of_lt (Int.floor_le x) h1
    exact_mod_cast this
  refine ⟨?_, ?_, Int.toNat_of_nonneg hnn⟩
  · unfold castUnsigned
    simp only [htd]
    rw [if_pos ⟨hnn, hlt⟩]
  · have h2 : ((⌊x⌋.toNat : Nat) : Int) < ((2 ^ bits : Nat) : Int) := by
      rw [Int.toNat_of_nonneg hnn]; exact_mod_cast hlt
    exact_mod_cast h2

/-- C7: for a record of kind 4 or 7 whose product v*d of decoded value and divisor
satisfies 0 <= v*d < 2^32, toByteArray returns the four identifier bytes, then four bytes
that are the big-endian digits of v*d truncated toward zero, then four bytes 0xFF; for
kind 8 and 0 <= v*d < 2^64 it returns the four identifier bytes followed by the eight
big-endian digits of the truncated product. The product is the one the multiplication
`fmul` delivers, in particular the exact one. -/
theorem C7_integer_value_field (fmul : ℚ → ℚ → ℚ) (d : ObisData)
    (h0 : 0 ≤ fmul d.measurementValue.value (d.measurementType.divisor : ℚ)) :
    ((d.type = 4 ∨ d.type = 7) →
      fmul d.measurementValue.value (d.measurementType.divisor : ℚ) < 2 ^ 32 →
      ∃ b0 b1 b2 b3 : Nat,
        d.toByteArray fmul = some [d.channel, d.index, d.type, d.tariff, b0, b1, b2, b3,
          0xff, 0xff, 0xff, 0xff]
        ∧ b0 < 256 ∧ b1 < 256 ∧ b2 < 256 ∧ b3 < 256
        ∧ ((b0 * 2 ^ 24 + b1 * 2 ^ 16 + b2 * 2 ^ 8 + b3 : Nat) : Int)
            = ⌊fmul d.measurementValue.value (d.measurementType.divisor : ℚ)⌋)
    ∧ (d.type = 8 →
      fmul d.measurementValue.value (d.measurementType.divisor : ℚ) < 2 ^ 64 →
      ∃ b0 b1 b2 b3 b4 b5 b6 b7 : Nat,
        d.toByteArray fmul = some [d.channel, d.index, d.type, d.tariff,
          b0, b1, b2, b3, b4, b5, b6, b7]
        ∧ b0 < 256 ∧ b1 < 256 ∧ b2 < 256 ∧ b3 < 256
        ∧ b4 < 256 ∧ b5 < 256 ∧ b6 < 256 ∧ b7 < 256
        ∧ ((b0 * 2 ^ 56 + b1 * 2 ^ 48 + b2 * 2 ^ 40 + b3 * 2 ^ 32
              + b4 * 2 ^ 24 + b5 * 2 ^ 16 + b6 * 2 ^ 8 + b7 : Nat) : Int)
            = ⌊fmul d.measurementValue.value (d.measurementType.divisor : ℚ)⌋) := by
  constructor
  · intro hk h1
    obtain ⟨hc, hlt, hfl⟩ := castUnsigned_floor 32 _ h0 h1
    generalize ⌊fmul d.measurementValue.value (d.measurementType.divisor : ℚ)⌋.toNat = n
      at hc hlt hfl
    refine ⟨n / 2 ^ 24 % 256, n / 2 ^ 16 % 256, n / 2 ^ 8 % 256, n % 256, ?_,
      Nat.mod_lt _ (by omega), Nat.mod_lt _ (by omega), Nat.mod_lt _ (by omega),
      Nat.mod_lt _ (by omega), ?_⟩
    · unfold ObisData.toByteArray
      rcases hk with hk | hk <;> rw [hk] <;>
        simp [hc, setObisValue4, ObisType.toByteArray, hk]
    · rw [← hfl]
      congr 1
      omega
  · intro hk h1
    obtain ⟨hc, hlt, hfl⟩ := castUnsigned_floor 64 _ h0 h1
    generalize ⌊fmul d.measurementValue.value (d.measurementType.divisor : ℚ)⌋.toNat = n
      at hc hlt hfl
    refine ⟨n / 2 ^ 56 % 256, n / 2 ^ 48 % 256, n / 2 ^ 40 % 256, n / 2 ^ 32 % 256,
      n / 2 ^ 24 % 256, n / 2 ^ 16 % 256, n / 2 ^ 8 % 256, n % 256, ?_,
      Nat.mod_lt _ (by omega), Nat.mod_lt _ (by omega), Nat.mod_lt _ (by omega),
      Nat.mod_lt _ (by omega), Nat.mod_lt _ (by omega), Nat.mod_lt _ (by omega),
      Nat.mod_lt _ (by omega), Nat.mod_lt _ (by omega), ?_⟩
    · unfold ObisData.toByteArray
      rw [hk]
      simp [hc, setObisValue8, ObisType.toByteArray, hk]
    · rw [← hfl]
      congr 1
      omega

/-- C7 witness: with exact arithmetic, divisor 10 and value 123.45 give the big-endian
bytes of 1234 in the 4-byte field; divisor 3600000 and value 2.5 give those of 9000000 in
the 8-byte field. -/
theorem C7_integer_value_field_witness :
    (measurementRecord 0 1 4 0 10 (12345 / 100)).toByteArray exactMul
        = some [0, 1, 4, 0, 0x00, 0x00, 0x04, 0xd2, 0xff, 0xff, 0xff, 0xff]
      ∧ (measurementRecord 0 1 8 0 3600000 (5 / 2)).toByteArray exactMul
        = some [0, 1, 8, 0, 0x00, 0x00, 0x00, 0x00, 0x00, 0x89, 0x54, 0x40] := by
  constructor
  · have h0 : (0 : ℚ) ≤ exactMul (measurementRecord 0 1 4 0 10 (12345 / 100)).measurementValue.value
        ((measurementRecord 0 1 4 0 10 (12345 / 100)).measurementType.divisor : ℚ) := by
      norm_num [measurementRecord, exactMul]
    obtain ⟨b0, b1, b2, b3, hb, l0, l1, l2, l3, hs⟩ :=
      (C7_integer_value_field exactMul (measurementRecord 0 1 4 0 10 (12345 / 100)) h0).1
        (Or.inl rfl) (by norm_num [measurementRecord, exactMul])
    have hfl : ⌊exactMul (measurementRecord 0 1 4 0 10 (12345 / 100)).measurementValue.value
        ((measurementRecord 0 1 4 0 10 (12345 / 100)).measurementType.divisor : ℚ)⌋
          = 1234 := by
      rw [Int.floor_eq_iff]; norm_num [measurementRecord, exactMul]
    rw [hfl] at hs
    have hs2 : b0 * 2 ^ 24 + b1 * 2 ^ 16 + b2 * 2 ^ 8 + b3 = 1234 := by exact_mod_cast hs
    have e0 : b0 = 0 := by omega
    have e1 : b1 = 0 := by omega
    have e2 : b2 = 4 := by omega
    have e3 : b3 = 210 := by omega
    rw [hb, e0, e1, e2, e3]
    rfl
  · have h0 : (0 : ℚ) ≤ exactMul (measurementRecord 0 1 8 0 3600000 (5 / 2)).measurementValue.value
        ((measurementRecord 0 1 8 0 3600000 (5 / 2)).measurementType.divisor : ℚ) := by
      norm_num [measurementRecord, exactMul]
    obtain ⟨b0, b1, b2, b3, b4, b5, b6, b7, hb, l0, l1, l2, l3, l4, l5, l6, l7, hs⟩ :=
      (C7_integer_value_field exactMul (measurementRecord 0 1 8 0 3600000 (5 / 2)) h0).2
        rfl (by norm_num [measurementRecord, exactMul])
    have hfl : ⌊exactMul (measurementRecord 0 1 8 0 3600000 (5 / 2)).measurementValue.value
        ((measurementRecord 0 1 8 0 3600000 (5 / 2)).measurementType.divisor : ℚ)⌋
          = 9000000 := by
      rw [Int.floor_eq_iff]; norm_num [measurementRecord, exactMul]
    rw [hfl] at hs
    have hs2 : b0 * 2 ^ 56 + b1 * 2 ^ 48 + b2 * 2 ^ 40 + b3 * 2 ^ 32
        + b4 * 2 ^ 24 + b5 * 2 ^ 16 + b6 * 2 ^ 8 + b7 = 9000000 := by exact_mod_cast hs
    have e0 : b0 = 0 := by omega
    have e1 : b1 = 0 := by omega
    have e2 : b2 = 0 := by omega
    have e3 : b3 = 0 := by omega
    have e4 : b4 = 0 := by omega
    have e5 : b5 = 137 := by omega
    have e6 : b6 = 84 := by omega
    have e7 : b7 = 64 := by omega
    rw [hb, e0, e1, e2, e3, e4, e5, e6, e7]
    rfl

/-! ## Obis data: end of data, equality and the canonical string -/

/-- C8: for the end-of-data record (channel 0, index 0, kind 0, tariff 0) toByteArray
writes the 32-bit value 0 into the value field, whatever unit descriptor, line,
description, decoded value, timestamp and text the record holds. -/
theorem C8_end_of_data_zero (fmul : ℚ → ℚ → ℚ) (mt : MeasurementType) (line : Line)
    (description : String) (mv : MeasurementValue) :
    (ObisData.mk ⟨0, 0, 0, 0⟩ mt line description mv).toByteArray fmul
      = some [0, 0, 0, 0, 0x00, 0x00, 0x00, 0x00, 0xff, 0xff, 0xff, 0xff] := by
  rfl

/-- C9: ObisType::equals is true exactly when channel, index, kind and tariff are
pairwise equal, so it is false once a single field of an identifier is changed; and
ObisData::equals gives the result of ObisType::equals on the identifiers, whatever unit
descriptor, line, description and decoded value the two records hold. -/
theorem C9_equals_structural :
    (∀ a b : ObisType, a.equals b = true ↔
        (a.channel = b.channel ∧ a.index = b.index ∧ a.type = b.type ∧ a.tariff = b.tariff))
    ∧ (∀ (a : ObisType) (x : Nat),
        (x ≠ a.channel → a.equals ⟨x, a.index, a.type, a.tariff⟩ = false)
        ∧ (x ≠ a.index → a.equals ⟨a.channel, x, a.type, a.tariff⟩ = false)
        ∧ (x ≠ a.type → a.equals ⟨a.channel, a.index, x, a.tariff⟩ = false)
        ∧ (x ≠ a.tariff → a.equals ⟨a.channel, a.index, a.type, x⟩ = false))
    ∧ (∀ (a b : ObisType) (mt1 mt2 : MeasurementType) (l1 l2 : Line) (s1 s2 : String)
        (v1 v2 : MeasurementValue),
        (ObisData.mk a mt1 l1 s1 v1).equals (ObisData.mk b mt2 l2 s2 v2).toObisType
          = a.equals b) := by
  refine ⟨?_, ?_, ?_⟩
  · intro a b
    simp [ObisType.equals, and_assoc]
  · intro a x
    refine ⟨?_, ?_, ?_, ?_⟩ <;> intro h <;> simp [ObisType.equals, Ne.symm h]
  · intro a b mt1 mt2 l1 l2 s1 s2 v1 v2
    rfl

/-- C10: for every identifier with 8-bit fields ObisType::toString is the decimal
channel, a dot, the decimal index with a zero in front when it has a single digit, a dot,
the decimal kind, a dot and the decimal tariff. -/
theorem C10_toString_format (o : ObisType) (h1 : o.channel < 256) (h2 : o.index < 256)
    (h3 : o.type < 256) (h4 : o.tariff < 256) :
    o.toString
      = Nat.repr o.channel ++ "."
        ++ (if o.index < 10 then "0" ++ Nat.repr o.index else Nat.repr o.index) ++ "."
        ++ Nat.repr o.type ++ "." ++ Nat.repr o.tariff := by
  have l1 := (toDigits_length_le o.channel h1).1
  have l2 := toDigits_length_le o.index h2
  have l3 := (toDigits_length_le o.type h3).1
  have l4 := (toDigits_length_le o.tariff h4).1
  apply String.ext
  unfold ObisType.toString formatDecimalZeroPad formatDecimal
  by_cases hi : o.index < 10
  · have l5 := toDigits_length_small o.index hi
    have hpad : List.replicate (2 - (Nat.toDigits 10 o.index).length) '0' = ['0'] := by
      rw [l5]; rfl
    rw [hpad, List.take_of_length_le (by simp; omega)]
    simp [hi, Nat.repr, String.data_append, List.asString]
  · have l5 := l2.2 (by omega)
    have hpad : List.replicate (2 - (Nat.toDigits 10 o.index).length) '0' = [] := by
      have : 2 - (Nat.toDigits 10 o.index).length = 0 := by omega
      rw [this]; rfl
    rw [hpad, List.take_of_length_le (by simp; omega)]
    simp [hi, Nat.repr, String.data_append, List.asString]

/-- C10 witness: the identifier (0, 1, 4, 0) prints as 0.01.4.0. -/
theorem C10_toString_format_witness :
    (ObisType.mk 0 1 4 0).toString = "0.01.4.0"
      ∧ (ObisType.mk 0 1 4 0).toString
        = Nat.repr 0 ++ "." ++ (if 1 < 10 then "0" ++ Nat.repr 1 else Nat.repr 1) ++ "."
          ++ Nat.repr 4 ++ "." ++ Nat.repr 0 :=
  ⟨by decide,
    C10_toString_format ⟨0, 1, 4, 0⟩ (by decide) (by decide) (by decide) (by decide)⟩

/-! ## Speedwire header: layout and validity -/

/-- C11 (as stated, refuted): by the offset constants of the header file the control byte
ends at offset 20; its offset plus its size is not 24. -/
theorem C11_control_end_not_24 :
    sma_control_offset = 19 ∧ sma_control_size = 1
      ∧ sma_control_offset + sma_control_size = 20
      ∧ sma_control_offset + sma_control_size ≠ 24 := by
  decide

/-- C11 (amended): the fields signature (4 bytes), tag0 (4), group (4), length (2), net
version (2), protocol id (2), long-words count (1) and control byte (1) start at offset 0
and each starts where the one before ends, without gap or overlap; the control byte's
offset plus its size is 20; getPayloadOffset is the constant 24. -/
theorem C11_header_layout (h : SpeedwireHeader) :
    sma_signature_offset = 0
      ∧ sma_signature.length = 4 ∧ sma_tag0.length = 4 ∧ sma_net_v2.length = 2
      ∧ List.Chain' (fun a b : Nat × Nat => a.1 + a.2 = b.1)
          [(sma_signature_offset, 4), (sma_tag0_offset, 4), (sma_group_offset, 4),
            (sma_length_offset, 2), (sma_netversion_offset, 2),
            (sma_protocol_offset, sma_protocol_size), (sma_long_words_offset, 1),
            (sma_control_offset, sma_control_size)]
      ∧ sma_control_offset + sma_control_size = 20
      ∧ h.getPayloadOffset = 24 := by
  refine ⟨rfl, rfl, rfl, rfl, ?_, rfl, rfl⟩
  simp only [List.chain'_cons, List.chain'_singleton, and_true]
  exact ⟨rfl, rfl, rfl, rfl, rfl, rfl, rfl⟩

/-- The two magic fields of a packet of at least eight bytes are its first eight bytes. -/
theorem checkHeader_iff_bytes (h : SpeedwireHeader) :
    h.checkHeader = true ↔ h.udp.take 8 = [0x53, 0x4d, 0x41, 0x00, 0x00, 0x04, 0x02, 0xa0] := by
  unfold SpeedwireHeader.checkHeader SpeedwireHeader.field
  rcases h with ⟨udp, size⟩
  simp only [sma_signature_offset, sma_tag0_offset, sma_signature, sma_tag0, List.length_cons,
    List.length_nil, List.drop_zero, Bool.and_eq_true, beq_iff_eq]
  match udp with
  | [] => simp
  | [_] => simp
  | [_, _] => simp
  | [_, _, _] => simp
  | [_, _, _, _] => simp
  | [_, _, _, _, _] => simp
  | [_, _, _, _, _, _] => simp
  | [_, _, _, _, _, _, _] => simp
  | b0 :: b1 :: b2 :: b3 :: b4 :: b5 :: b6 :: b7 :: rest =>
    simp only [List.take, List.drop, List.cons.injEq, and_true]
    tauto

/-- C12: for a packet that holds the header, checkHeader is true exactly when bytes 0..3
are 0x53 0x4d 0x41 0x00 and bytes 4..7 are 0x00 0x04 0x02 0xa0; giving any of these eight
bytes of a valid header another value makes it false; and no byte from offset 8 on, nor
the size, has an influence on the result. -/
theorem C12_checkHeader_magic (h : SpeedwireHeader)
    (hlen : sma_control_offset + sma_control_size ≤ h.udp.length) :
    (h.checkHeader = true ↔
        (h.udp.take 4 = [0x53, 0x4d, 0x41, 0x00]
          ∧ (h.udp.drop 4).take 4 = [0x00, 0x04, 0x02, 0xa0]))
    ∧ (∀ (i : Nat) (hi : i < h.udp.length) (b : Nat), i < 8 → b ≠ h.udp.get ⟨i, hi⟩ →
        h.checkHeader = true →
        SpeedwireHeader.checkHeader ⟨h.udp.set i b, h.size⟩ = false)
    ∧ (∀ (i b size2 : Nat), 8 ≤ i →
        SpeedwireHeader.checkHeader ⟨h.udp.set i b, size2⟩ = h.checkHeader) := by
  rcases h with ⟨udp, size⟩
  have hlen : 20 ≤ udp.length := hlen
  match udp, hlen with
  | b0 :: b1 :: b2 :: b3 :: b4 :: b5 :: b6 :: b7 :: rest, _ =>
    refine ⟨?_, ?_, ?_⟩
    · rw [checkHeader_iff_bytes]
      simp only [List.take, List.drop, List.cons.injEq, and_true]
      tauto
    · intro i hi b hi8 hb hvalid
      rw [checkHeader_iff_bytes] at hvalid
      rw [Bool.eq_false_iff]
      intro hc
      rw [checkHeader_iff_bytes] at hc
      simp only [List.take, List.cons.injEq, and_true] at hvalid
      obtain ⟨e0, e1, e2, e3, e4, e5, e6, e7⟩ := hvalid
      subst e0 e1 e2 e3 e4 e5 e6 e7
      interval_cases i <;> simp [List.set] at hc hb <;> omega
    · intro i b size2 hi
      have hbool : ∀ x y : Bool, (x = true ↔ y = true) → x = y := by
        intro x y; cases x <;> cases y <;> simp
      apply hbool
      rw [checkHeader_iff_bytes, checkHeader_iff_bytes]
      obtain ⟨k, rfl⟩ : ∃ k, i = k + 8 := ⟨i - 8, by omega⟩
      simp [List.set, List.take]

/-- C12 witness: a packet of 24 bytes with the two magic fields and zeros behind them. -/
theorem C12_checkHeader_magic_witness :
    SpeedwireHeader.checkHeader
        ⟨[0x53, 0x4d, 0x41, 0x00, 0x00, 0x04, 0x02, 0xa0, 0, 0, 0, 0,
          0, 0, 0, 0, 0, 0, 0, 0, 0, 0, 0, 0], 24⟩ = true
      ∧ SpeedwireHeader.checkHeader
        ⟨[0x53, 0x4d, 0x41, 0x00, 0x00, 0x04, 0x03, 0xa0, 0, 0, 0, 0,
          0, 0, 0, 0, 0, 0, 0, 0, 0, 0, 0, 0], 24⟩ = false :=
  have key := C12_checkHeader_magic
    ⟨[0x53, 0x4d, 0x41, 0x00, 0x00, 0x04, 0x02, 0xa0, 0, 0, 0, 0,
      0, 0, 0, 0, 0, 0, 0, 0, 0, 0, 0, 0], 24⟩ (by decide)
  ⟨key.1.mpr ⟨rfl, rfl⟩,
    key.2.1 6 (by decide) 3 (by decide) (by decide) (key.1.mpr ⟨rfl, rfl⟩)⟩

/-! ## Socket factory: the singleton and the construction -/

/-- C13: from the uninitialized state the first getInstance(localhost, s1) constructs the
factory with strategy s1; every later getInstance, whatever its strategy, local addresses
and the outcome of opens at that time, returns that same instance and leaves it as it is:
same strategy, same registry, same count of opens. -/
theorem C13_getInstance_idempotent (F : Flags) (os : OpenOracle) (localhost : List String)
    (s1 : Strategy) :
    (getInstance F os none localhost s1).1
        = ⟨localhost, s1, construct F os localhost s1⟩
    ∧ (getInstance F os none localhost s1).2 = some (getInstance F os none localhost s1).1
    ∧ (∀ (os2 : OpenOracle) (localhost2 : List String) (s2 : Strategy),
        getInstance F os2 (getInstance F os none localhost s1).2 localhost2 s2
          = ((getInstance F os none localhost s1).1, (getInstance F os none localhost s1).2))
    ∧ (∀ (os2 : OpenOracle) (calls : List (List String × Strategy)),
        calls.foldl (fun st c => (getInstance F os2 st c.1 c.2).2)
            (getInstance F os none localhost s1).2
          = (getInstance F os none localhost s1).2
        ∧ ∀ c ∈ calls,
            (getInstance F os2
                (calls.foldl (fun st c => (getInstance F os2 st c.1 c.2).2)
                  (getInstance F os none localhost s1).2) c.1 c.2).1
              = (getInstance F os none localhost s1).1) := by
  have hfix : ∀ (os2 : OpenOracle) (calls : List (List String × Strategy))
      (f : SpeedwireSocketFactory),
      calls.foldl (fun st c => (getInstance F os2 st c.1 c.2).2) (some f) = some f := by
    intro os2 calls f
    induction calls with
    | nil => rfl
    | cons c rest ih => simpa [List.foldl_cons, getInstance] using ih
  refine ⟨rfl, rfl, fun _ _ _ => rfl, ?_⟩
  intro os2 calls
  have h2 : (getInstance F os none localhost s1).2
      = some ⟨localhost, s1, construct F os localhost s1⟩ := rfl
  rw [h2, hfix]
  exact ⟨rfl, fun _ _ => rfl⟩

theorem openSocketLoop_result (F : Flags) (os : OpenOracle) (direction type : Nat)
    (ips : List String) (result : Bool) (st : FactoryState) :
    (openSocketLoop F os direction type ips result st).1
      = (result && (ips.enumFrom st.opens).all
          (fun p => (os p.1 p.2 ((type &&& F.MULTICAST) != 0)).isSome)) := by
  induction ips generalizing result st with
  | nil => simp [openSocketLoop]
  | cons ip rest ih =>
    rw [openSocketLoop, ih]
    unfold openSocketForSingleInterface
    cases hos : os st.opens ip ((type &&& F.MULTICAST) != 0) <;>
      simp [List.enumFrom, hos]

theorem recordedEntry_map (F : Flags) (os : OpenOracle) (direction type n : Nat)
    (ips : List String) :
    ((ips.map (fun ip => (direction, type, ip))).enumFrom n).filterMap (recordedEntry F os)
      = (ips.enumFrom n).filterMap (openAttempt F os direction type) := by
  induction ips generalizing n with
  | nil => rfl
  | cons ip rest ih =>
    simp only [List.map_cons, List.enumFrom, List.filterMap_cons, ih]
    rfl

/-- C14: for every strategy, list of local addresses and pattern of open outcomes, the
constructor attempts one open per socket the strategy requires, and the registry holds,
in the order attempted, exactly the entries of the opens that succeeded; a single open
that fails leaves the registry as it was, one that succeeds appends its entry, and both
count as attempted; openSocketForEachInterface returns true exactly when every one of its
opens succeeded. -/
theorem C14_construct_registry (F : Flags) (os : OpenOracle) (localIPs : List String)
    (strategy : Strategy) :
    (construct F os localIPs strategy).opens = (requiredSockets F localIPs strategy).length
    ∧ (construct F os localIPs strategy).sockets
        = ((requiredSockets F localIPs strategy).enumFrom 0).filterMap (recordedEntry F os)
    ∧ (∀ (st : FactoryState) (direction type : Nat) (a : String),
        (openSocketForSingleInterface F os st direction type a).2.opens = st.opens + 1
        ∧ (os st.opens a ((type &&& F.MULTICAST) != 0) = none →
            openSocketForSingleInterface F os st direction type a
              = (false, ⟨st.sockets, st.opens + 1⟩))
        ∧ (∀ s, os st.opens a ((type &&& F.MULTICAST) != 0) = some s →
            openSocketForSingleInterface F os st direction type a
              = (true, ⟨st.sockets ++ [⟨s, direction, type, a⟩], st.opens + 1⟩)))
    ∧ (∀ (st : FactoryState) (direction type : Nat),
        (openSocketForEachInterface F os localIPs st direction type).1 = true
          ↔ ∀ p ∈ localIPs.enumFrom st.opens,
              (os p.1 p.2 ((type &&& F.MULTICAST) != 0)).isSome = true) := by
  refine ⟨?_, ?_, ?_, ?_⟩
  · cases strategy <;>
      simp [construct, requiredSockets, openSocketForEachInterface, openSocketLoop_eq,
        openSocketForSingleInterface] <;>
      split <;> simp
  · cases strategy
    · simp only [construct, requiredSockets, openSocketForEachInterface, openSocketLoop_eq,
        recordedEntry_map, List.nil_append]
    · simp only [construct, requiredSockets, openSocketForSingleInterface, recordedEntry,
        List.enumFrom, List.filterMap_cons, List.filterMap_nil]
      cases os 0 "0.0.0.0" (((F.MULTICAST ||| F.UNICAST) &&& F.MULTICAST) != 0) <;> simp
    · rw [construct_mixed_sockets]
      simp only [requiredSockets, List.enumFrom_append, List.filterMap_append,
        recordedEntry_map, List.length_map, Nat.zero_add, List.enumFrom, List.filterMap_cons,
        List.filterMap_nil, recordedEntry, openAttempt]
      cases os localIPs.length "0.0.0.0" (((F.MULTICAST ||| F.UNICAST) &&& F.MULTICAST) != 0)
        <;> simp
    · simp only [construct, requiredSockets, openSocketForEachInterface, openSocketLoop_eq,
        recordedEntry_map, List.nil_append]
  · intro st direction type a
    unfold openSocketForSingleInterface
    cases os st.opens a ((type &&& F.MULTICAST) != 0) <;> simp
  · intro st direction type
    simp [openSocketForEachInterface, openSocketLoop_result, List.all_eq_true]

/-- C15: on a non-empty registry, getSendSocket returns the first entry when no entry with
the SEND bit is bound to the requested address or to 0.0.0.0, and getRecvSocket returns
the first entry when no entry with the RECV bit is bound to one of them; on the empty
registry neither lookup has a result. -/
theorem C15_fallback_first_entry (F : Flags) (sockets : List SocketEntry) (type : Nat)
    (if_addr : String) (h : sockets ≠ []) :
    ((∀ e ∈ sockets, e.direction &&& F.SEND ≠ 0 →
          e.interface_address ≠ if_addr ∧ e.interface_address ≠ "0.0.0.0") →
        getSendSocket F sockets type if_addr = sockets.head? ∧ sockets.head?.isSome = true)
    ∧ ((∀ e ∈ sockets, e.direction &&& F.RECV ≠ 0 →
          e.interface_address ≠ if_addr ∧ e.interface_address ≠ "0.0.0.0") →
        getRecvSocket F sockets type if_addr = sockets.head? ∧ sockets.head?.isSome = true)
    ∧ getSendSocket F [] type if_addr = none
    ∧ getRecvSocket F [] type if_addr = none := by
  have hhead : sockets.head?.isSome = true := by
    cases sockets with
    | nil => exact absurd rfl h
    | cons e rest => rfl
  have hnone : ∀ (p : SocketEntry → Bool), (∀ e ∈ sockets, p e = false) →
      sockets.find? p = none := by
    intro p hp
    rw [List.find?_eq_none]
    intro e he
    simp [hp e he]
  refine ⟨?_, ?_, ?_, ?_⟩
  · intro hno
    refine ⟨?_, hhead⟩
    rw [getSendSocket_eq_sendProcedure]
    simp only [sendProcedure]
    rw [hnone _ (fun e he => ?_), hnone _ (fun e he => ?_)]
    · split <;> rfl
    · by_cases hd : e.direction &&& F.SEND = 0
      · simp [hd]
      · simp [(hno e he hd).1, (hno e he hd).2]
    · by_cases hd : e.direction &&& F.SEND = 0
      · simp [hd]
      · simp [(hno e he hd).1, (hno e he hd).2]
  · intro hno
    refine ⟨?_, hhead⟩
    rw [getRecvSocket_eq_recvProcedure]
    simp only [recvProcedure]
    rw [hnone _ (fun e he => ?_), hnone _ (fun e he => ?_), hnone _ (fun e he => ?_)]
    · split <;> rfl
    · by_cases hd : e.direction &&& F.RECV = 0
      · simp [hd]
      · simp [(hno e he hd).1, (hno e he hd).2]
    · by_cases hd : e.direction &&& F.RECV = 0
      · simp [hd]
      · simp [(hno e he hd).1, (hno e he hd).2]
    · by_cases hd : e.direction &&& F.RECV = 0
      · simp [hd]
      · simp [(hno e he hd).1, (hno e he hd).2]
  · unfold getSendSocket
    split <;> simp_all [scanSockets]
  · unfold getRecvSocket
    split <;> simp_all [scanSockets]

/-- C15 witness: a registry whose only entry cannot send or receive. -/
theorem C15_fallback_first_entry_witness :
    getSendSocket bitFlags [⟨⟨5⟩, 0, 3, "10.0.0.1"⟩] bitFlags.UNICAST "10.0.0.1"
        = some ⟨⟨5⟩, 0, 3, "10.0.0.1"⟩
      ∧ getRecvSocket bitFlags [⟨⟨5⟩, 0, 3, "10.0.0.1"⟩] bitFlags.UNICAST "10.0.0.1"
        = some ⟨⟨5⟩, 0, 3, "10.0.0.1"⟩ :=
  have key := C15_fallback_first_entry bitFlags [⟨⟨5⟩, 0, 3, "10.0.0.1"⟩] bitFlags.UNICAST
    "10.0.0.1" (by decide)
  ⟨(key.1 (by decide)).1, (key.2.1 (by decide)).1⟩

/-! ## Socket factory: the batch lookup keeps first occurrences -/

theorem keepFirstFd_filter (q : Int → Bool) (l : List SpeedwireSocket) :
    (keepFirstFd l).filter (fun r => q r.getSocketFd)
      = keepFirstFd (l.filter (fun r => q r.getSocketFd)) := by
  induction l with
  | nil => rfl
  | cons s rest ih =>
    by_cases hq : q s.getSocketFd = true
    · simp only [keepFirstFd, List.filter_cons, hq, if_true, ← ih, List.filter_filter]
      congr 1
      apply List.filter_congr
      intro x _
      exact Bool.and_comm _ _
    · simp only [keepFirstFd, List.filter_cons, hq, if_false, Bool.false_eq_true, ← ih,
        List.filter_filter]
      apply List.filter_congr
      intro x _
      by_cases hx : x.getSocketFd = s.getSocketFd
      · simp [hx, hq]
      · simp [hx]

theorem keepFirstFd_mem (x : Int) (l : List SpeedwireSocket) :
    x ∈ (keepFirstFd l).map SpeedwireSocket.getSocketFd
      ↔ x ∈ l.map SpeedwireSocket.getSocketFd := by
  induction l with
  | nil => simp [keepFirstFd]
  | cons s rest ih =>
    simp only [keepFirstFd, List.map_cons, List.mem_cons]
    constructor
    · rintro (h | h)
      · exact Or.inl h
      · right
        apply ih.mp
        obtain ⟨r, hr, hrx⟩ := List.mem_map.mp h
        exact List.mem_map.mpr ⟨r, (List.mem_filter.mp hr).1, hrx⟩
    · rintro (h | h)
      · exact Or.inl h
      · by_cases hx : x = s.getSocketFd
        · exact Or.inl hx
        · right
          obtain ⟨r, hr, hrx⟩ := List.mem_map.mp (ih.mpr h)
          refine List.mem_map.mpr ⟨r, List.mem_filter.mpr ⟨hr, ?_⟩, hrx⟩
          simp [hrx, hx]

theorem keepFirstFd_append_seen (pre xs : List SpeedwireSocket) (s : SpeedwireSocket)
    (h : s.getSocketFd ∈ pre.map SpeedwireSocket.getSocketFd) :
    keepFirstFd (pre ++ s :: xs) = keepFirstFd (pre ++ xs) := by
  induction pre with
  | nil => simp at h
  | cons p pre ih =>
    simp only [List.cons_append, keepFirstFd, List.cons.injEq, true_and]
    by_cases hp : s.getSocketFd = p.getSocketFd
    · rw [keepFirstFd_filter (fun x => x != p.getSocketFd),
        keepFirstFd_filter (fun x => x != p.getSocketFd)]
      simp [List.filter_append, List.filter_cons, hp]
    · have h2 : s.getSocketFd ∈ pre.map SpeedwireSocket.getSocketFd := by
        simp only [List.map_cons, List.mem_cons] at h
        rcases h with h | h
        · exact absurd h hp
        · exact h
      exact congrArg _ (ih h2)

theorem keepFirstFd_append_new (pre : List SpeedwireSocket) (s : SpeedwireSocket)
    (h : s.getSocketFd ∉ pre.map SpeedwireSocket.getSocketFd) :
    keepFirstFd (pre ++ [s]) = keepFirstFd pre ++ [s] := by
  induction pre with
  | nil => rfl
  | cons p pre ih =>
    simp only [List.map_cons, List.mem_cons, not_or] at h
    simp only [List.cons_append, keepFirstFd, List.cons.injEq, true_and]
    show List.filter _ (keepFirstFd (pre ++ [s])) = _
    rw [ih h.2, List.filter_append]
    simp [h.1]

theorem appendRecvSockets_keepFirst (F : Flags) (sockets : List SocketEntry) (t : Nat)
    (addrs : List String) (pre : List SpeedwireSocket) (h : sockets ≠ []) :
    appendRecvSockets F sockets t addrs (keepFirstFd pre)
      = some (keepFirstFd (pre
          ++ addrs.filterMap (fun a => (getRecvSocket F sockets t a).map (fun e => e.socket)))) := by
  induction addrs generalizing pre with
  | nil => simp [appendRecvSockets]
  | cons a rest ih =>
    obtain ⟨e, he⟩ := Option.isSome_iff_exists.mp (getRecvSocket_isSome F sockets t a h)
    unfold appendRecvSockets
    simp only [he, List.filterMap_cons, Option.map_some']
    by_cases hd : (keepFirstFd pre).any (fun recv_socket =>
        e.socket.getSocketFd == recv_socket.getSocketFd) = true
    · have hmem : e.socket.getSocketFd ∈ pre.map SpeedwireSocket.getSocketFd := by
        rw [← keepFirstFd_mem]
        rw [List.any_eq_true] at hd
        obtain ⟨x, hx, hxe⟩ := hd
        have hxe2 : e.socket.getSocketFd = x.getSocketFd := by simpa using hxe
        exact List.mem_map.mpr ⟨x, hx, hxe2.symm⟩
      rw [hd, if_neg (by decide), ih pre, keepFirstFd_append_seen pre _ e.socket hmem]
    · have hmem : e.socket.getSocketFd ∉ pre.map SpeedwireSocket.getSocketFd := by
        rw [← keepFirstFd_mem]
        intro hc
        apply hd
        rw [List.any_eq_true]
        obtain ⟨x, hx, hxe⟩ := List.mem_map.mp hc
        exact ⟨x, hx, by simp [hxe]⟩
      have hd2 : (keepFirstFd pre).any (fun recv_socket =>
          e.socket.getSocketFd == recv_socket.getSocketFd) = false := by
        simpa using hd
      rw [hd2, if_pos (by decide), ← keepFirstFd_append_new pre e.socket hmem,
        ih (pre ++ [e.socket])]
      simp

/-- One guarded loop of `getRecvSockets` appends the sockets resolved for its cast type. -/
theorem recvStep_keepFirst (F : Flags) (sockets : List SocketEntry) (type t : Nat)
    (addrs : List String) (pre : List SpeedwireSocket) (h : sockets ≠ []) :
    (if (type &&& t) != 0 then appendRecvSockets F sockets t addrs (keepFirstFd pre)
      else some (keepFirstFd pre))
      = some (keepFirstFd (pre ++ resolvedFor F sockets type t addrs)) := by
  unfold resolvedFor
  by_cases hb : type &&& t = 0
  · simp [hb]
  · simp only [hb, if_false, bne_iff_ne, ne_eq, not_false_eq_true, if_true]
    exact appendRecvSockets_keepFirst F sockets t addrs pre h

/-- C16: when the special case does not apply (the strategy is not the mixed one, or the
requested type has a bit outside MULTICAST), getRecvSockets on a non-empty registry is the
list of the sockets resolved by getRecvSocket for UNICAST, then for MULTICAST, then for
ANYCAST, each for every address in order and only if the requested type has the bit, of
which only the first occurrence of each file descriptor is kept. -/
theorem C16_getRecvSockets_concat (F : Flags) (strategy : Strategy)
    (sockets : List SocketEntry) (type : Nat) (if_addresses : List String)
    (h : sockets ≠ [])
    (hns : strategy ≠ .ONE_MULTICAST_SOCKET_AND_ONE_UNICAST_SOCKET_FOR_EACH_INTERFACE
      ∨ type &&& F.MULTICAST ≠ type) :
    getRecvSockets F strategy sockets type if_addresses
        = some (keepFirstFd
            (resolvedFor F sockets type F.UNICAST if_addresses
              ++ resolvedFor F sockets type F.MULTICAST if_addresses
              ++ resolvedFor F sockets type F.ANYCAST if_addresses))
    ∧ (∀ t, type &&& t ≠ 0 →
        (resolvedFor F sockets type t if_addresses).map some
          = if_addresses.map (fun a => (getRecvSocket F sockets t a).map (fun e => e.socket)))
    ∧ (∀ t, type &&& t = 0 → resolvedFor F sockets type t if_addresses = []) := by
  refine ⟨?_, ?_, ?_⟩
  · have hcond : ((type &&& F.MULTICAST) == type
        && strategy == .ONE_MULTICAST_SOCKET_AND_ONE_UNICAST_SOCKET_FOR_EACH_INTERFACE)
          = false := by
      rcases hns with hs | ht
      · simp [hs]
      · simp [ht]
    unfold getRecvSockets
    simp only [hcond, Bool.false_eq_true, if_false]
    have h1 := recvStep_keepFirst F sockets type F.UNICAST if_addresses [] h
    have h2 := recvStep_keepFirst F sockets type F.MULTICAST if_addresses
      ([] ++ resolvedFor F sockets type F.UNICAST if_addresses) h
    have h3 := recvStep_keepFirst F sockets type F.ANYCAST if_addresses
      ([] ++ resolvedFor F sockets type F.UNICAST if_addresses
        ++ resolvedFor F sockets type F.MULTICAST if_addresses) h
    have e0 : keepFirstFd [] = [] := rfl
    rw [e0] at h1
    simp only [List.nil_append] at h1 h2 h3
    simp only [h1, h2, h3]
  · intro t ht
    unfold resolvedFor
    simp only [ht, if_false]
    induction if_addresses with
    | nil => rfl
    | cons a rest ih =>
      obtain ⟨e, he⟩ := Option.isSome_iff_exists.mp (getRecvSocket_isSome F sockets t a h)
      simp [he, ih]
  · intro t ht
    simp [resolvedFor, ht]

/-- C16 witness: a request for UNICAST and MULTICAST under ONE_SOCKET_FOR_EACH_INTERFACE on
a registry of two interfaces, with a repeated address. -/
theorem C16_getRecvSockets_concat_witness :
    getRecvSockets bitFlags .ONE_SOCKET_FOR_EACH_INTERFACE
        (construct bitFlags (fun n _ _ => some ⟨n + 3⟩) ["10.0.0.1", "10.0.0.2"]
          .ONE_SOCKET_FOR_EACH_INTERFACE).sockets
        (bitFlags.MULTICAST ||| bitFlags.UNICAST) ["10.0.0.2", "10.0.0.1", "10.0.0.2"]
      = some [⟨4⟩, ⟨3⟩] :=
  ((C16_getRecvSockets_concat bitFlags .ONE_SOCKET_FOR_EACH_INTERFACE
      (construct bitFlags (fun n _ _ => some ⟨n + 3⟩) ["10.0.0.1", "10.0.0.2"]
        .ONE_SOCKET_FOR_EACH_INTERFACE).sockets
      (bitFlags.MULTICAST ||| bitFlags.UNICAST) ["10.0.0.2", "10.0.0.1", "10.0.0.2"]
      (by decide) (Or.inl (by decide))).1).trans (by decide)

/-- C17 (as stated, refuted): under the default mixed strategy a request with no cast-type
bit set meets the special case, because (0 & MULTICAST) == 0, and gets the shared socket
instead of the empty list. -/
theorem C17_no_bit_mixed_refuted :
    getRecvSockets bitFlags .ONE_MULTICAST_SOCKET_AND_ONE_UNICAST_SOCKET_FOR_EACH_INTERFACE
        mixedRegistry 0 ["10.0.0.1"] = some [⟨4⟩]
      ∧ getRecvSockets bitFlags .ONE_MULTICAST_SOCKET_AND_ONE_UNICAST_SOCKET_FOR_EACH_INTERFACE
        mixedRegistry 0 ["10.0.0.1"] ≠ some [] := by
  decide

/-- C17 (amended): for a requested type with no cast-type bit set, getRecvSockets returns
the empty list for every strategy other than the default mixed strategy, for every
registry and every address list. -/
theorem C17_no_bit_empty (F : Flags) (strategy : Strategy) (sockets : List SocketEntry)
    (type : Nat) (if_addresses : List String)
    (hU : type &&& F.UNICAST = 0) (hM : type &&& F.MULTICAST = 0)
    (hA : type &&& F.ANYCAST = 0)
    (hs : strategy ≠ .ONE_MULTICAST_SOCKET_AND_ONE_UNICAST_SOCKET_FOR_EACH_INTERFACE) :
    getRecvSockets F strategy sockets type if_addresses = some [] := by
  unfold getRecvSockets
  simp [hs, hU, hM, hA]

/-- C17 witness: the type 0 under ONE_SINGLE_SOCKET. -/
theorem C17_no_bit_empty_witness :
    getRecvSockets bitFlags .ONE_SINGLE_SOCKET mixedRegistry 0 ["10.0.0.1", "10.0.0.2"]
      = some [] :=
  C17_no_bit_empty bitFlags .ONE_SINGLE_SOCKET mixedRegistry 0 ["10.0.0.1", "10.0.0.2"]
    (by decide) (by decide) (by decide) (by decide)

/-! ## Obis data: identifiers without an encoding rule, unparsed versions, the catalog -/

/-- C18: for a record whose kind is none of 0, 4, 7 and 8, or whose kind is 0 while the
channel is not 144 and channel, index and tariff are not all 0, toByteArray returns the
on-wire identifier form of ObisType::toByteArray unchanged: channel, index, kind, tariff
and eight bytes 0xFF, whatever the value slot holds. -/
theorem C18_no_rule_identifier_form (fmul : ℚ → ℚ → ℚ) (d : ObisData)
    (h : (d.type ≠ 0 ∧ d.type ≠ 4 ∧ d.type ≠ 7 ∧ d.type ≠ 8)
      ∨ (d.type = 0 ∧ d.channel ≠ 144 ∧ ¬(d.channel = 0 ∧ d.index = 0 ∧ d.tariff = 0))) :
    d.toByteArray fmul = some d.toObisType.toByteArray
      ∧ d.toObisType.toByteArray
        = [d.channel, d.index, d.type, d.tariff,
            0xff, 0xff, 0xff, 0xff, 0xff, 0xff, 0xff, 0xff] := by
  refine ⟨?_, rfl⟩
  unfold ObisData.toByteArray
  rcases h with ⟨h0, h4, h7, h8⟩ | ⟨h0, hch, hnz⟩
  · split
    · rename_i heq; exact absurd heq h0
    · rename_i heq; exact absurd heq h4
    · rename_i heq; exact absurd heq h7
    · rename_i heq; exact absurd heq h8
    · rfl
  · rw [h0]
    have h1 : (d.channel == 144) = false := by simpa using hch
    have h2 : (d.channel == 0 && d.index == 0 && d.tariff == 0) = false := by
      rw [Bool.eq_false_iff]
      intro hc
      simp only [Bool.and_eq_true, beq_iff_eq] at hc
      exact hnz ⟨hc.1.1, hc.1.2, hc.2⟩
    simp [h1, h2]

/-- C18 witness: a record of kind 5, and a record of kind 0 on channel 1. -/
theorem C18_no_rule_identifier_form_witness :
    (measurementRecord 0 1 5 0 10 (7 / 2)).toByteArray exactMul
        = some [0, 1, 5, 0, 0xff, 0xff, 0xff, 0xff, 0xff, 0xff, 0xff, 0xff]
      ∧ (measurementRecord 1 0 0 0 10 (7 / 2)).toByteArray exactMul
        = some [1, 0, 0, 0, 0xff, 0xff, 0xff, 0xff, 0xff, 0xff, 0xff, 0xff] :=
  ⟨(C18_no_rule_identifier_form exactMul (measurementRecord 0 1 5 0 10 (7 / 2))
      (Or.inl (by decide))).1,
    (C18_no_rule_identifier_form exactMul (measurementRecord 1 0 0 0 10 (7 / 2))
      (Or.inr (by decide))).1⟩

/-- C19 (as stated, refuted): the text 1.2 yields two fields under the decimal parse and
two under the hexadecimal parse, so four under neither, and the value field is
01 02 FF FF: the two converted fields are written, only the other two bytes are 0xFF. -/
theorem C19_partial_parse_refuted :
    (sscanf4 (scanInteger 10 none) (c_str "1.2") (0xff, 0xff, 0xff, 0xff)).1 = 2
      ∧ (sscanf4 (scanInteger 16 (some 2)) (c_str "1.2") (0xff, 0xff, 0xff, 0xff)).1 = 2
      ∧ (firmwareRecord "1.2").toByteArray exactMul
        = some [144, 0, 0, 0, 0x01, 0x02, 0xff, 0xff, 0xff, 0xff, 0xff, 0xff]
      ∧ (firmwareRecord "1.2").toByteArray exactMul
        ≠ some [144, 0, 0, 0, 0xff, 0xff, 0xff, 0xff, 0xff, 0xff, 0xff, 0xff] := by
  decide

/-- C19 (amended): for the firmware-version record (channel 144, kind 0), if the text
yields no field at all under the decimal parse and under the hexadecimal parse, that is
the first conversion fails under both, the value field of toByteArray is FF FF FF FF. -/
theorem C19_nothing_parsed_fill (fmul : ℚ → ℚ → ℚ) (d : ObisData)
    (hch : d.channel = 144) (hk : d.type = 0)
    (h10 : scanInteger 10 none (c_str d.measurementValue.value_string) = none)
    (h16 : scanInteger 16 (some 2) (c_str d.measurementValue.value_string) = none) :
    d.toByteArray fmul
      = some [144, d.index, 0, d.tariff, 0xff, 0xff, 0xff, 0xff, 0xff, 0xff, 0xff, 0xff] := by
  unfold ObisData.toByteArray
  simp only [hk, hch, beq_self_eq_true, if_true, sscanf4, scanFields, h10, h16]
  simp only [setObisValue4, ObisType.toByteArray, hch, hk, List.getD_nil]
  have hv : (0xff <<< 24) % 2 ^ 32 ||| (0xff <<< 16) % 2 ^ 32 ||| (0xff <<< 8) % 2 ^ 32 ||| 0xff
      = 0xffffffff := by decide
  split <;> simp [hv]

/-- C19 witness: a text that begins with a character no conversion accepts. -/
theorem C19_nothing_parsed_fill_witness :
    (firmwareRecord "unknown").toByteArray exactMul
      = some [144, 0, 0, 0, 0xff, 0xff, 0xff, 0xff, 0xff, 0xff, 0xff, 0xff] :=
  C19_nothing_parsed_fill exactMul (firmwareRecord "unknown") rfl rfl (by decide) (by decide)

theorem getAllPredefined_identifiers (M : MeasurementTypes) :
    (ObisData.getAllPredefined M).map (fun d => d.toObisType)
      = predefinedIdentifiers.map (fun q => ObisType.mk q.1 q.2.1 q.2.2.1 q.2.2.2) := by
  rfl

theorem getAllPredefined_lines (M : MeasurementTypes) :
    (ObisData.getAllPredefined M).map (fun d => d.line)
      = List.replicate 13 Line.TOTAL ++ List.replicate 15 Line.L1
        ++ List.replicate 15 Line.L2 ++ List.replicate 15 Line.L3
        ++ [Line.NO_LINE, Line.NO_LINE, Line.TOTAL, Line.L1, Line.L2, Line.L3] := by
  rfl

/-- C20: the catalog of getAllPredefined begins with 58 records of channel 0 and kind 4 or
8 in strictly increasing order of (index, kind), the totals first, then line 1, line 2
and line 3; then come the firmware-version record (144,0,0,0) and the end-of-data record
(0,0,0,0); the only records behind end-of-data are the four signed-power records of
kind 7. -/
theorem C20_catalog_order (M : MeasurementTypes) :
    (ObisData.getAllPredefined M).length = 64
    ∧ (∀ o ∈ ((ObisData.getAllPredefined M).map (fun d => d.toObisType)).take 58,
        o.channel = 0 ∧ (o.type = 4 ∨ o.type = 8))
    ∧ List.Pairwise
        (fun a b : ObisType => a.index < b.index ∨ (a.index = b.index ∧ a.type < b.type))
        (((ObisData.getAllPredefined M).map (fun d => d.toObisType)).take 58)
    ∧ ((ObisData.getAllPredefined M).map (fun d => d.line)).take 58
        = List.replicate 13 Line.TOTAL ++ List.replicate 15 Line.L1
          ++ List.replicate 15 Line.L2 ++ List.replicate 15 Line.L3
    ∧ ((ObisData.getAllPredefined M).map (fun d => d.toObisType)).drop 58
        = [ObisType.mk 144 0 0 0, ObisType.mk 0 0 0 0, ObisType.mk 0 16 7 0,
            ObisType.mk 0 36 7 0, ObisType.mk 0 56 7 0, ObisType.mk 0 76 7 0] := by
  rw [getAllPredefined_identifiers, getAllPredefined_lines]
  refine ⟨rfl, by decide, by decide, by decide, ?_⟩
  rfl

/-! ## Socket factory: every entry can send and receive -/

theorem construct_sockets_required (F : Flags) (os : OpenOracle) (localIPs : List String)
    (strategy : Strategy) :
    (construct F os localIPs strategy).sockets
      = ((requiredSockets F localIPs strategy).enumFrom 0).filterMap (recordedEntry F os) := by
  cases strategy
  · simp only [construct, requiredSockets, openSocketForEachInterface, openSocketLoop_eq,
      recordedEntry_map, List.nil_append]
  · simp only [construct, requiredSockets, openSocketForSingleInterface, recordedEntry,
      List.enumFrom, List.filterMap_cons, List.filterMap_nil]
    cases os 0 "0.0.0.0" (((F.MULTICAST ||| F.UNICAST) &&& F.MULTICAST) != 0) <;> simp
  · rw [construct_mixed_sockets]
    simp only [requiredSockets, List.enumFrom_append, List.filterMap_append,
      recordedEntry_map, List.length_map, Nat.zero_add, List.enumFrom, List.filterMap_cons,
      List.filterMap_nil, recordedEntry, openAttempt]
    cases os localIPs.length "0.0.0.0" (((F.MULTICAST ||| F.UNICAST) &&& F.MULTICAST) != 0)
      <;> simp
  · simp only [construct, requiredSockets, openSocketForEachInterface, openSocketLoop_eq,
      recordedEntry_map, List.nil_append]

theorem requiredSockets_direction (F : Flags) (localIPs : List String) (strategy : Strategy)
    (q : Nat × Nat × String) (h : q ∈ requiredSockets F localIPs strategy) :
    q.1 = F.SEND ||| F.RECV := by
  cases strategy <;> simp only [requiredSockets, List.mem_map, List.mem_append,
    List.mem_singleton] at h
  · obtain ⟨ip, _, rfl⟩ := h; rfl
  · rw [h]
  · rcases h with ⟨ip, _, rfl⟩ | h
    · rfl
    · rw [h]
  · obtain ⟨ip, _, rfl⟩ := h; rfl

theorem recordedEntry_direction (F : Flags) (os : OpenOracle) (n : Nat)
    (req : List (Nat × Nat × String)) (e : SocketEntry)
    (h : e ∈ (req.enumFrom n).filterMap (recordedEntry F os)) :
    ∃ q ∈ req, e.direction = q.1 ∧ e.type = q.2.1 ∧ e.interface_address = q.2.2 := by
  obtain ⟨p, hp, hpe⟩ := List.mem_filterMap.mp h
  have hq : p.2 ∈ req := by
    have := List.mem_map_of_mem Prod.snd hp
    simpa [List.enumFrom_map_snd] using this
  refine ⟨p.2, hq, ?_⟩
  unfold recordedEntry at hpe
  cases ho : os p.1 p.2.2.2 ((p.2.2.1 &&& F.MULTICAST) != 0) with
  | none => simp [ho] at hpe
  | some s =>
    simp only [ho, Option.map_some', Option.some.injEq] at hpe
    subst hpe
    exact ⟨rfl, rfl, rfl⟩

/-- C21: for every strategy, list of local addresses and pattern of open outcomes, every
entry of the registry after construction has the direction SEND|RECV exactly; hence, the
two enumerators being non-zero bitmasks, the SEND test of getSendSocket and the RECV test
of getRecvSocket succeed on every entry. -/
theorem C21_direction_send_recv (F : Flags) (os : OpenOracle) (localIPs : List String)
    (strategy : Strategy) :
    ∀ e ∈ (construct F os localIPs strategy).sockets,
      e.direction = F.SEND ||| F.RECV
        ∧ (F.SEND ≠ 0 → ((e.direction &&& F.SEND) != 0) = true)
        ∧ (F.RECV ≠ 0 → ((e.direction &&& F.RECV) != 0) = true) := by
  intro e he
  rw [construct_sockets_required] at he
  obtain ⟨q, hq, hd, _, _⟩ := recordedEntry_direction F os 0 _ e he
  have hdir : e.direction = F.SEND ||| F.RECV := by
    rw [hd, requiredSockets_direction F localIPs strategy q hq]
  refine ⟨hdir, ?_, ?_⟩
  · intro hS
    rw [hdir, or_and_left_self]
    simpa using hS
  · intro hR
    rw [hdir, or_and_right_self]
    simpa using hR

/-- C21 witness: the shared entry of the registry of the default mixed strategy. -/
theorem C21_direction_send_recv_witness :
    (⟨⟨4⟩, 3, 3, "0.0.0.0"⟩ : SocketEntry).direction = bitFlags.SEND ||| bitFlags.RECV
      ∧ (bitFlags.SEND ≠ 0 →
          (((⟨⟨4⟩, 3, 3, "0.0.0.0"⟩ : SocketEntry).direction &&& bitFlags.SEND) != 0) = true)
      ∧ (bitFlags.RECV ≠ 0 →
          (((⟨⟨4⟩, 3, 3, "0.0.0.0"⟩ : SocketEntry).direction &&& bitFlags.RECV) != 0) = true) :=
  C21_direction_send_recv bitFlags (fun n _ _ => some ⟨n + 3⟩) ["10.0.0.1"]
    .ONE_MULTICAST_SOCKET_AND_ONE_UNICAST_SOCKET_FOR_EACH_INTERFACE
    ⟨⟨4⟩, 3, 3, "0.0.0.0"⟩ (by decide)

/-! ## Socket factory: lookups on the registry of the default mixed strategy -/

theorem find_append_last (pre : List SocketEntry) (x : SocketEntry) (p : SocketEntry → Bool)
    (h : ∀ e ∈ pre, p e = false) :
    (pre ++ [x]).find? p = if p x = true then some x else none := by
  have hpre : pre.find? p = none := by
    rw [List.find?_eq_none]
    intro e he
    simp [h e he]
  rw [List.find?_append, hpre]
  by_cases hx : p x = true <;> simp [hx]

theorem find_append_first (pre : List SocketEntry) (x : SocketEntry) (p : SocketEntry → Bool)
    (e0 : SocketEntry) (h0 : e0 ∈ pre) (hp : p e0 = true) :
    ∃ e ∈ pre, p e = true ∧ (pre ++ [x]).find? p = some e := by
  cases hf : pre.find? p with
  | none =>
    rw [List.find?_eq_none] at hf
    exact absurd hp (hf e0 h0)
  | some e =>
    refine ⟨e, List.mem_of_find?_eq_some hf, List.find?_some hf, ?_⟩
    rw [List.find?_append, hf]
    rfl

theorem find_congr_mem (l : List SocketEntry) (p q : SocketEntry → Bool)
    (h : ∀ e ∈ l, p e = q e) : l.find? p = l.find? q := by
  induction l with
  | nil => rfl
  | cons x rest ih =>
    rw [List.find?_cons, List.find?_cons, h x (List.mem_cons_self _ _),
      ih (fun e he => h e (List.mem_cons_of_mem _ he))]

/-- The registry of the default mixed strategy when every open succeeds: one unicast entry
per local address, in order, then the shared entry. -/
theorem construct_mixed_shape (F : Flags) (os : OpenOracle) (localIPs : List String)
    (hos : ∀ n a m, (os n a m).isSome) :
    ∃ (w : SpeedwireSocket) (pre : List SocketEntry),
      os localIPs.length "0.0.0.0" (((F.MULTICAST ||| F.UNICAST) &&& F.MULTICAST) != 0) = some w
      ∧ (construct F os localIPs
          .ONE_MULTICAST_SOCKET_AND_ONE_UNICAST_SOCKET_FOR_EACH_INTERFACE).sockets
        = pre ++ [⟨w, F.SEND ||| F.RECV, F.MULTICAST ||| F.UNICAST, "0.0.0.0"⟩]
      ∧ (∀ e ∈ pre, e.direction = F.SEND ||| F.RECV ∧ e.type = F.UNICAST
          ∧ e.interface_address ∈ localIPs)
      ∧ pre.map (fun e => e.interface_address) = localIPs := by
  obtain ⟨w, hw⟩ := Option.isSome_iff_exists.mp
    (hos localIPs.length "0.0.0.0" (((F.MULTICAST ||| F.UNICAST) &&& F.MULTICAST) != 0))
  refine ⟨w, (localIPs.enumFrom 0).filterMap (openAttempt F os (F.SEND ||| F.RECV) F.UNICAST),
    hw, ?_, ?_, ?_⟩
  · rw [construct_mixed_sockets]
    simp [openAttempt, hw]
  · intro e he
    exact openAttempt_mem F os _ _ 0 localIPs e he
  · exact openAttempt_all_succeed F os _ _ 0 localIPs hos

theorem mixed_multicast_lookup (F : Flags) (pre : List SocketEntry) (w : SpeedwireSocket)
    (a : String)
    (hpre : ∀ e ∈ pre, e.direction = F.SEND ||| F.RECV ∧ e.type = F.UNICAST)
    (hS : F.SEND ≠ 0) (hR : F.RECV ≠ 0) (hM : F.MULTICAST ≠ 0)
    (hUM : F.UNICAST &&& F.MULTICAST = 0) :
    getSendSocket F (pre ++ [⟨w, F.SEND ||| F.RECV, F.MULTICAST ||| F.UNICAST, "0.0.0.0"⟩])
        F.MULTICAST a
      = some ⟨w, F.SEND ||| F.RECV, F.MULTICAST ||| F.UNICAST, "0.0.0.0"⟩
    ∧ getRecvSocket F (pre ++ [⟨w, F.SEND ||| F.RECV, F.MULTICAST ||| F.UNICAST, "0.0.0.0"⟩])
        F.MULTICAST a
      = some ⟨w, F.SEND ||| F.RECV, F.MULTICAST ||| F.UNICAST, "0.0.0.0"⟩ := by
  have hne : (0 : Nat) ≠ F.MULTICAST := fun h => hM h.symm
  constructor
  · rw [getSendSocket_eq_sendProcedure]
    simp only [sendProcedure]
    rw [find_append_last pre, find_append_last pre]
    · by_cases ha : a = "0.0.0.0"
      · simp [ha, containsAll, or_and_left_self, or_and_right_self, hS]
      · have ha2 : ¬ "0.0.0.0" = a := fun h => ha h.symm
        simp [ha, ha2, containsAll, or_and_left_self, or_and_right_self, hS]
    · intro e he
      simp [containsAll, (hpre e he).2, hUM, hne]
    · intro e he
      simp [containsAll, (hpre e he).2, hUM, hne]
  · rw [getRecvSocket_eq_recvProcedure]
    simp only [recvProcedure]
    rw [find_append_last pre, find_append_last pre, find_append_last pre]
    · by_cases ha : a = "0.0.0.0"
      · simp [ha, containsAll, or_and_left_self, or_and_right_self, hR]
      · have ha2 : ¬ "0.0.0.0" = a := fun h => ha h.symm
        simp [ha, ha2, containsAll, or_and_left_self, or_and_right_self, hR]
    · intro e he
      simp [containsAll, (hpre e he).2, hUM, hne]
    · intro e he
      simp [containsAll, (hpre e he).2, hUM, hne]
    · intro e he
      simp [containsAll, (hpre e he).2, hUM, hne]

theorem mixed_unicast_other_lookup (F : Flags) (pre : List SocketEntry) (w : SpeedwireSocket)
    (a : String)
    (hpre : ∀ e ∈ pre, e.interface_address ≠ a ∧ e.interface_address ≠ "0.0.0.0")
    (hS : F.SEND ≠ 0) (hR : F.RECV ≠ 0) :
    getSendSocket F (pre ++ [⟨w, F.SEND ||| F.RECV, F.MULTICAST ||| F.UNICAST, "0.0.0.0"⟩])
        F.UNICAST a
      = some ⟨w, F.SEND ||| F.RECV, F.MULTICAST ||| F.UNICAST, "0.0.0.0"⟩
    ∧ getRecvSocket F (pre ++ [⟨w, F.SEND ||| F.RECV, F.MULTICAST ||| F.UNICAST, "0.0.0.0"⟩])
        F.UNICAST a
      = some ⟨w, F.SEND ||| F.RECV, F.MULTICAST ||| F.UNICAST, "0.0.0.0"⟩ := by
  constructor
  · rw [getSendSocket_eq_sendProcedure]
    simp only [sendProcedure]
    rw [find_append_last pre, find_append_last pre]
    · by_cases ha : a = "0.0.0.0"
      · simp [ha, containsAll, or_and_left_self, or_and_right_self, hS]
      · have ha2 : ¬ "0.0.0.0" = a := fun h => ha h.symm
        simp [ha, ha2, containsAll, or_and_left_self, or_and_right_self, hS]
    · intro e he
      simp [(hpre e he).1, (hpre e he).2]
    · intro e he
      simp [(hpre e he).1, (hpre e he).2]
  · rw [getRecvSocket_eq_recvProcedure]
    simp only [recvProcedure]
    rw [find_append_last pre, find_append_last pre, find_append_last pre]
    · by_cases ha : a = "0.0.0.0"
      · simp [ha, containsAll, or_and_left_self, or_and_right_self, hR]
      · have ha2 : ¬ "0.0.0.0" = a := fun h => ha h.symm
        simp [ha, ha2, containsAll, or_and_left_self, or_and_right_self, hR]
    · intro e he
      simp [(hpre e he).1, (hpre e he).2]
    · intro e he
      simp [(hpre e he).1, (hpre e he).2]
    · intro e he
      simp [(hpre e he).1, (hpre e he).2]

theorem mixed_unicast_local_lookup (F : Flags) (pre : List SocketEntry) (x : SocketEntry)
    (a : String) (ha0 : a ≠ "0.0.0.0")
    (hpre : ∀ e ∈ pre, e.direction = F.SEND ||| F.RECV ∧ e.type = F.UNICAST)
    (hx : x.interface_address ≠ a)
    (ha : ∃ e0 ∈ pre, e0.interface_address = a)
    (hS : F.SEND ≠ 0) (hR : F.RECV ≠ 0) :
    ∃ e ∈ pre, e.interface_address = a
      ∧ getSendSocket F (pre ++ [x]) F.UNICAST a = some e
      ∧ getRecvSocket F (pre ++ [x]) F.UNICAST a = some e := by
  obtain ⟨e0, he0, hea⟩ := ha
  have hq : ∀ (cap : SocketEntry → Bool), (∀ e ∈ pre, cap e = true) →
      ∀ e ∈ pre ++ [x],
        (cap e && containsAll e.type F.UNICAST && e.interface_address == a)
          = (e.interface_address == a) := by
    intro cap hcap e he
    rcases List.mem_append.mp he with he | he
    · simp [hcap e he, containsAll, (hpre e he).2]
    · rw [List.mem_singleton] at he
      subst he
      simp [hx]
  obtain ⟨e, hepre, hpe, hfind⟩ :=
    find_append_first pre x (fun e => e.interface_address == a) e0 he0 (by simp [hea])
  have hcapS : ∀ e ∈ pre, ((e.direction &&& F.SEND) != 0) = true := by
    intro e he
    rw [(hpre e he).1, or_and_left_self]
    simpa using hS
  have hcapR : ∀ e ∈ pre, ((e.direction &&& F.RECV) != 0) = true := by
    intro e he
    rw [(hpre e he).1, or_and_right_self]
    simpa using hR
  refine ⟨e, hepre, by simpa using hpe, ?_, ?_⟩
  · rw [getSendSocket_eq_sendProcedure]
    simp only [sendProcedure, ha0, if_false]
    rw [find_congr_mem _ _ _ (hq (fun e => (e.direction &&& F.SEND) != 0) hcapS), hfind]
    rfl
  · rw [getRecvSocket_eq_recvProcedure]
    simp only [recvProcedure, ha0, if_false]
    rw [find_congr_mem _ _ _ (hq (fun e => (e.direction &&& F.RECV) != 0) hcapR), hfind]
    rfl

/-- C22: on the registry the default mixed strategy builds over local addresses none of
which is 0.0.0.0, every open succeeding, and SEND, RECV, MULTICAST being non-zero with no
bit shared by UNICAST and MULTICAST: for every address the MULTICAST send and receive
lookups return the shared entry bound to 0.0.0.0; for a local address the UNICAST lookups
return an entry of the registry bound to that address; for every other address they return
the shared entry. -/
theorem C22_mixed_no_fallback (F : Flags) (os : OpenOracle) (localIPs : List String)
    (hL : "0.0.0.0" ∉ localIPs) (hos : ∀ n a m, (os n a m).isSome)
    (hS : F.SEND ≠ 0) (hR : F.RECV ≠ 0) (hM : F.MULTICAST ≠ 0)
    (hUM : F.UNICAST &&& F.MULTICAST = 0) :
    ∃ w : SpeedwireSocket,
      os localIPs.length "0.0.0.0" (((F.MULTICAST ||| F.UNICAST) &&& F.MULTICAST) != 0) = some w
      ∧ (construct F os localIPs
          .ONE_MULTICAST_SOCKET_AND_ONE_UNICAST_SOCKET_FOR_EACH_INTERFACE).sockets.getLast?
        = some ⟨w, F.SEND ||| F.RECV, F.MULTICAST ||| F.UNICAST, "0.0.0.0"⟩
      ∧ (∀ a : String,
          getSendSocket F (construct F os localIPs
              .ONE_MULTICAST_SOCKET_AND_ONE_UNICAST_SOCKET_FOR_EACH_INTERFACE).sockets
              F.MULTICAST a
            = some ⟨w, F.SEND ||| F.RECV, F.MULTICAST ||| F.UNICAST, "0.0.0.0"⟩
          ∧ getRecvSocket F (construct F os localIPs
              .ONE_MULTICAST_SOCKET_AND_ONE_UNICAST_SOCKET_FOR_EACH_INTERFACE).sockets
              F.MULTICAST a
            = some ⟨w, F.SEND ||| F.RECV, F.MULTICAST ||| F.UNICAST, "0.0.0.0"⟩)
      ∧ (∀ a ∈ localIPs, ∃ s : SpeedwireSocket,
          (⟨s, F.SEND ||| F.RECV, F.UNICAST, a⟩ : SocketEntry) ∈ (construct F os localIPs
              .ONE_MULTICAST_SOCKET_AND_ONE_UNICAST_SOCKET_FOR_EACH_INTERFACE).sockets
          ∧ getSendSocket F (construct F os localIPs
              .ONE_MULTICAST_SOCKET_AND_ONE_UNICAST_SOCKET_FOR_EACH_INTERFACE).sockets
              F.UNICAST a
            = some ⟨s, F.SEND ||| F.RECV, F.UNICAST, a⟩
          ∧ getRecvSocket F (construct F os localIPs
              .ONE_MULTICAST_SOCKET_AND_ONE_UNICAST_SOCKET_FOR_EACH_INTERFACE).sockets
              F.UNICAST a
            = some ⟨s, F.SEND ||| F.RECV, F.UNICAST, a⟩)
      ∧ (∀ a : String, a ∉ localIPs →
          getSendSocket F (construct F os localIPs
              .ONE_MULTICAST_SOCKET_AND_ONE_UNICAST_SOCKET_FOR_EACH_INTERFACE).sockets
              F.UNICAST a
            = some ⟨w, F.SEND ||| F.RECV, F.MULTICAST ||| F.UNICAST, "0.0.0.0"⟩
          ∧ getRecvSocket F (construct F os localIPs
              .ONE_MULTICAST_SOCKET_AND_ONE_UNICAST_SOCKET_FOR_EACH_INTERFACE).sockets
              F.UNICAST a
            = some ⟨w, F.SEND ||| F.RECV, F.MULTICAST ||| F.UNICAST, "0.0.0.0"⟩) := by
  obtain ⟨w, pre, hw, hreg, hpre, hmap⟩ := construct_mixed_shape F os localIPs hos
  rw [hreg]
  refine ⟨w, hw, by simp, ?_, ?_, ?_⟩
  · intro a
    exact mixed_multicast_lookup F pre w a (fun e he => ⟨(hpre e he).1, (hpre e he).2.1⟩)
      hS hR hM hUM
  · intro a ha
    have ha0 : a ≠ "0.0.0.0" := fun hc => hL (hc ▸ ha)
    have hex : ∃ e0 ∈ pre, e0.interface_address = a := by
      rw [← hmap] at ha
      obtain ⟨e0, he0, hea⟩ := List.mem_map.mp ha
      exact ⟨e0, he0, hea⟩
    obtain ⟨e, hepre, hea, hsend, hrecv⟩ :=
      mixed_unicast_local_lookup F pre
        ⟨w, F.SEND ||| F.RECV, F.MULTICAST ||| F.UNICAST, "0.0.0.0"⟩ a ha0
        (fun e he => ⟨(hpre e he).1, (hpre e he).2.1⟩) (fun hc => ha0 hc.symm) hex hS hR
    have hshape : e = ⟨e.socket, F.SEND ||| F.RECV, F.UNICAST, a⟩ := by
      rcases e with ⟨s, d, t, addr⟩
      have h1 := (hpre _ hepre).1
      have h2 := (hpre _ hepre).2.1
      simp only at h1 h2 hea
      rw [h1, h2, hea]
    refine ⟨e.socket, ?_, ?_, ?_⟩
    · rw [← hshape]
      exact List.mem_append_left _ hepre
    · rw [← hshape]; exact hsend
    · rw [← hshape]; exact hrecv
  · intro a ha
    refine mixed_unicast_other_lookup F pre w a (fun e he => ⟨?_, ?_⟩) hS hR
    · intro hc
      exact ha (hc ▸ (hpre e he).2.2)
    · intro hc
      exact hL (hc ▸ (hpre e he).2.2)

/-- C22 witness: the local addresses 10.0.0.1 and 10.0.0.2 with the one-bit enumerator
values. -/
theorem C22_mixed_no_fallback_witness :
    ∃ w : SpeedwireSocket,
      (fun (n : Nat) (_ : String) (_ : Bool) => some (SpeedwireSocket.mk (n + 3)))
          ["10.0.0.1", "10.0.0.2"].length "0.0.0.0"
          (((bitFlags.MULTICAST ||| bitFlags.UNICAST) &&& bitFlags.MULTICAST) != 0) = some w
      ∧ (construct bitFlags (fun n _ _ => some ⟨n + 3⟩) ["10.0.0.1", "10.0.0.2"]
          .ONE_MULTICAST_SOCKET_AND_ONE_UNICAST_SOCKET_FOR_EACH_INTERFACE).sockets.getLast?
        = some ⟨w, bitFlags.SEND ||| bitFlags.RECV, bitFlags.MULTICAST ||| bitFlags.UNICAST,
            "0.0.0.0"⟩
      ∧ getSendSocket bitFlags
          (construct bitFlags (fun n _ _ => some ⟨n + 3⟩) ["10.0.0.1", "10.0.0.2"]
            .ONE_MULTICAST_SOCKET_AND_ONE_UNICAST_SOCKET_FOR_EACH_INTERFACE).sockets
          bitFlags.MULTICAST "10.0.0.2"
        = some ⟨w, bitFlags.SEND ||| bitFlags.RECV, bitFlags.MULTICAST ||| bitFlags.UNICAST,
            "0.0.0.0"⟩ :=
  have key := C22_mixed_no_fallback bitFlags (fun n _ _ => some ⟨n + 3⟩)
    ["10.0.0.1", "10.0.0.2"] (by decide) (fun _ _ _ => rfl)
    (by decide) (by decide) (by decide) (by decide)
  key.elim fun w hw => ⟨w, hw.1, hw.2.1, (hw.2.2.1 "10.0.0.2").1⟩

/-! ## Obis data: the catalog has distinct identifiers -/

theorem equals_iff_eq (a b : ObisType) : a.equals b = true ↔ a = b := by
  rcases a with ⟨a1, a2, a3, a4⟩
  rcases b with ⟨b1, b2, b3, b4⟩
  simp [ObisType.equals, and_assoc]

theorem predefinedIdentifiers_nodup :
    (predefinedIdentifiers.map (fun q => ObisType.mk q.1 q.2.1 q.2.2.1 q.2.2.2)).Nodup := by
  decide

/-- C23: no two records of the catalog of getAllPredefined have equal identifiers: equals
is false, in both directions, for every two records at different positions, so for every
key at most one record of the catalog equals it. -/
theorem C23_catalog_distinct (M : MeasurementTypes) :
    List.Pairwise
        (fun a b : ObisData =>
          a.equals b.toObisType = false ∧ b.equals a.toObisType = false)
        (ObisData.getAllPredefined M)
    ∧ (∀ (i j : Fin (ObisData.getAllPredefined M).length), i ≠ j →
        ((ObisData.getAllPredefined M).get i).equals
          ((ObisData.getAllPredefined M).get j).toObisType = false)
    ∧ (∀ key : ObisType,
        ((ObisData.getAllPredefined M).filter (fun d => d.equals key)).length ≤ 1) := by
  have hnd : ((ObisData.getAllPredefined M).map (fun d => d.toObisType)).Nodup := by
    rw [getAllPredefined_identifiers]
    exact predefinedIdentifiers_nodup
  have hfalse : ∀ a b : ObisType, a ≠ b → a.equals b = false := by
    intro a b hab
    rw [Bool.eq_false_iff]
    intro hc
    exact hab ((equals_iff_eq a b).mp hc)
  refine ⟨?_, ?_, ?_⟩
  · have hp := List.pairwise_map.mp hnd
    refine hp.imp ?_
    intro a b hab
    exact ⟨hfalse _ _ hab, hfalse _ _ (fun h => hab h.symm)⟩
  · intro i j hij
    apply hfalse
    intro hc
    have hinj := (List.pairwise_map.mp hnd)
    rcases Nat.lt_or_gt_of_ne (fun h => hij (Fin.ext h)) with hlt | hgt
    · exact (List.pairwise_iff_get.mp hinj) i j hlt hc
    · exact (List.pairwise_iff_get.mp hinj) j i hgt hc.symm
  · intro key
    have hcount := List.nodup_iff_count_le_one.mp hnd key
    have heq : ((ObisData.getAllPredefined M).filter (fun d => d.equals key)).length
        = List.count key ((ObisData.getAllPredefined M).map (fun d => d.toObisType)) := by
      rw [List.count, List.countP_map, List.countP_eq_length_filter]
      congr 1
      apply List.filter_congr
      intro d _
      by_cases hd : d.toObisType = key
      · simp [ObisData.equals, hd, (equals_iff_eq key key).mpr rfl]
      · have h1 : d.toObisType.equals key = false := hfalse _ _ hd
        simp [ObisData.equals, h1, hd]
    rw [heq]
    exact hcount

/-! ## Obis data: the canonical string determines the identifier -/

theorem split_at_dot (x y r s : List Char)
    (hx : ∀ c ∈ x, c.isDigit = true) (hy : ∀ c ∈ y, c.isDigit = true)
    (h : x ++ '.' :: r = y ++ '.' :: s) : x = y ∧ r = s := by
  have hdot : ('.' : Char).isDigit = false := by decide
  induction x generalizing y with
  | nil =>
    cases y with
    | nil => simpa using h
    | cons d ds =>
      simp only [List.nil_append, List.cons_append, List.cons.injEq] at h
      have := hy d (List.mem_cons_self _ _)
      rw [← h.1, hdot] at this
      exact absurd this (by decide)
  | cons c cs ih =>
    cases y with
    | nil =>
      simp only [List.nil_append, List.cons_append, List.cons.injEq] at h
      have := hx c (List.mem_cons_self _ _)
      rw [h.1, hdot] at this
      exact absurd this (by decide)
    | cons d ds =>
      simp only [List.cons_append, List.cons.injEq] at h
      obtain ⟨h1, h2⟩ := ih ds (fun c hc => hx c (List.mem_cons_of_mem _ hc))
        (fun c hc => hy c (List.mem_cons_of_mem _ hc)) h.2
      exact ⟨by rw [h.1, h1], h2⟩

theorem toDigits_injective (m n : Nat) (h : Nat.toDigits 10 m = Nat.toDigits 10 n) : m = n := by
  rw [← toDigits_value m, ← toDigits_value n, h]

theorem zeroPad_all_digits (width n : Nat) :
    ∀ c ∈ formatDecimalZeroPad width n, c.isDigit = true := by
  intro c hc
  unfold formatDecimalZeroPad formatDecimal at hc
  rcases List.mem_append.mp hc with hc | hc
  · rw [(List.mem_replicate.mp hc).2]; decide
  · exact toDigits_all_digits n c hc

theorem zeroPad_value (width n : Nat) :
    (formatDecimalZeroPad width n).foldl (fun a c => a * 10 + (c.toNat - 48)) 0 = n := by
  unfold formatDecimalZeroPad formatDecimal
  rw [List.foldl_append]
  have hz : ∀ k, (List.replicate k '0').foldl (fun a c => a * 10 + (c.toNat - 48)) 0 = 0 := by
    intro k
    induction k with
    | zero => rfl
    | succ k ih => rw [List.replicate_succ, List.foldl_cons]; exact ih
  rw [hz, toDigits_value]

theorem zeroPad_length (n : Nat) (h : n < 256) :
    (formatDecimalZeroPad 2 n).length ≤ 3 := by
  unfold formatDecimalZeroPad formatDecimal
  have l := toDigits_length_le n h
  by_cases hn : n < 10
  · rw [List.length_append, List.length_replicate, toDigits_length_small n hn]
    decide
  · have := l.2 (by omega)
    rw [List.length_append, List.length_replicate]
    omega

theorem toString_data (o : ObisType) (h1 : o.channel < 256) (h2 : o.index < 256)
    (h3 : o.type < 256) (h4 : o.tariff < 256) :
    o.toString.data
      = formatDecimal o.channel ++ '.' :: (formatDecimalZeroPad 2 o.index
          ++ '.' :: (formatDecimal o.type ++ '.' :: formatDecimal o.tariff))
    ∧ o.toString.length ≤ 15 := by
  have l1 := (toDigits_length_le o.channel h1).1
  have l2 := zeroPad_length o.index h2
  have l3 := (toDigits_length_le o.type h3).1
  have l4 := (toDigits_length_le o.tariff h4).1
  have hlen : (formatDecimal o.channel ++ '.' :: (formatDecimalZeroPad 2 o.index
      ++ '.' :: (formatDecimal o.type ++ '.' :: formatDecimal o.tariff))).length ≤ 15 := by
    simp only [List.length_append, List.length_cons, formatDecimal] at *
    omega
  have hdata : o.toString.data
      = formatDecimal o.channel ++ '.' :: (formatDecimalZeroPad 2 o.index
          ++ '.' :: (formatDecimal o.type ++ '.' :: formatDecimal o.tariff)) := by
    unfold ObisType.toString
    simp only [List.append_assoc, List.cons_append]
    rw [List.take_of_length_le (by simpa using hlen)]
  refine ⟨hdata, ?_⟩
  show o.toString.data.length ≤ 15
  rw [hdata]
  exact hlen

/-- C24: for identifiers with 8-bit fields the canonical string has at most 15 characters,
so the 16-byte buffer of snprintf holds it with its terminator and nothing is cut off; and
two such identifiers have the same canonical string exactly when they agree in channel,
index, kind and tariff, which is when equals is true. -/
theorem C24_toString_injective (a b : ObisType)
    (ha1 : a.channel < 256) (ha2 : a.index < 256) (ha3 : a.type < 256) (ha4 : a.tariff < 256)
    (hb1 : b.channel < 256) (hb2 : b.index < 256) (hb3 : b.type < 256) (hb4 : b.tariff < 256) :
    a.toString.length ≤ 15 ∧ a.toString.length + 1 ≤ 16
    ∧ (a.toString = b.toString ↔
        (a.channel = b.channel ∧ a.index = b.index ∧ a.type = b.type ∧ a.tariff = b.tariff))
    ∧ (a.toString = b.toString ↔ a.equals b = true) := by
  obtain ⟨hda, hla⟩ := toString_data a ha1 ha2 ha3 ha4
  obtain ⟨hdb, _⟩ := toString_data b hb1 hb2 hb3 hb4
  have hiff : a.toString = b.toString ↔
      (a.channel = b.channel ∧ a.index = b.index ∧ a.type = b.type ∧ a.tariff = b.tariff) := by
    constructor
    · intro h
      have hd : a.toString.data = b.toString.data := by rw [h]
      rw [hda, hdb] at hd
      obtain ⟨e1, r1⟩ := split_at_dot _ _ _ _ (toDigits_all_digits a.channel)
        (toDigits_all_digits b.channel) hd
      obtain ⟨e2, r2⟩ := split_at_dot _ _ _ _ (zeroPad_all_digits 2 a.index)
        (zeroPad_all_digits 2 b.index) r1
      obtain ⟨e3, r3⟩ := split_at_dot _ _ _ _ (toDigits_all_digits a.type)
        (toDigits_all_digits b.type) r2
      refine ⟨toDigits_injective _ _ e1, ?_, toDigits_injective _ _ e3,
        toDigits_injective _ _ r3⟩
      rw [← zeroPad_value 2 a.index, ← zeroPad_value 2 b.index, e2]
    · rintro ⟨e1, e2, e3, e4⟩
      rcases a with ⟨a1, a2, a3, a4⟩
      rcases b with ⟨b1, b2, b3, b4⟩
      simp only at e1 e2 e3 e4
      rw [e1, e2, e3, e4]
  refine ⟨hla, by omega, hiff, ?_⟩
  rw [hiff, equals_iff_eq]
  constructor
  · rintro ⟨e1, e2, e3, e4⟩
    rcases a with ⟨a1, a2, a3, a4⟩
    rcases b with ⟨b1, b2, b3, b4⟩
    simp only at e1 e2 e3 e4
    rw [e1, e2, e3, e4]
  · intro h
    rw [h]
    exact ⟨rfl, rfl, rfl, rfl⟩

/-- C24 witness: the identifiers (0, 1, 4, 0) and (0, 10, 4, 0) have different strings,
0.01.4.0 and 0.10.4.0, of 8 characters. -/
theorem C24_toString_injective_witness :
    (ObisType.mk 0 1 4 0).toString.length ≤ 15
      ∧ (ObisType.mk 0 1 4 0).toString ≠ (ObisType.mk 0 10 4 0).toString :=
  have key := C24_toString_injective ⟨0, 1, 4, 0⟩ ⟨0, 10, 4, 0⟩
    (by decide) (by decide) (by decide) (by decide)
    (by decide) (by decide) (by decide) (by decide)
  ⟨key.1, fun h => absurd (key.2.2.1.mp h).2.1 (by decide)⟩

/-! ## Obis data: every catalog record has an encoding rule -/

/-- C25: every record of the catalog of getAllPredefined has an encoding rule in
toByteArray: its kind is 4, 7 or 8, or it is the firmware-version record (channel 144,
kind 0) or the end-of-data record (0, 0, 0, 0); so none meets the condition of the path
that leaves the value field as fill bytes. -/
theorem C25_catalog_covered (M : MeasurementTypes) :
    (ObisData.getAllPredefined M).length = 64
    ∧ (∀ d ∈ ObisData.getAllPredefined M,
        d.type = 4 ∨ d.type = 7 ∨ d.type = 8 ∨ (d.channel = 144 ∧ d.type = 0)
          ∨ (d.channel = 0 ∧ d.index = 0 ∧ d.type = 0 ∧ d.tariff = 0))
    ∧ (∀ d ∈ ObisData.getAllPredefined M,
        ¬((d.type ≠ 0 ∧ d.type ≠ 4 ∧ d.type ≠ 7 ∧ d.type ≠ 8)
          ∨ (d.type = 0 ∧ d.channel ≠ 144
              ∧ ¬(d.channel = 0 ∧ d.index = 0 ∧ d.tariff = 0)))) := by
  have hall : ∀ o ∈ predefinedIdentifiers.map (fun q => ObisType.mk q.1 q.2.1 q.2.2.1 q.2.2.2),
      o.type = 4 ∨ o.type = 7 ∨ o.type = 8 ∨ (o.channel = 144 ∧ o.type = 0)
        ∨ (o.channel = 0 ∧ o.index = 0 ∧ o.type = 0 ∧ o.tariff = 0) := by
    decide
  have hcov : ∀ d ∈ ObisData.getAllPredefined M,
      d.type = 4 ∨ d.type = 7 ∨ d.type = 8 ∨ (d.channel = 144 ∧ d.type = 0)
        ∨ (d.channel = 0 ∧ d.index = 0 ∧ d.type = 0 ∧ d.tariff = 0) := by
    intro d hd
    have hmem : d.toObisType ∈ (ObisData.getAllPredefined M).map (fun d => d.toObisType) :=
      List.mem_map.mpr ⟨d, hd, rfl⟩
    rw [getAllPredefined_identifiers] at hmem
    exact hall _ hmem
  refine ⟨rfl, hcov, ?_⟩
  intro d hd
  have h := hcov d hd
  omega
